import Mathlib

/-!
# Verification of the std-minver core against its specification

Shallow embedding of the core algorithms of the `std-minver` repository
(`cetest_models.py`, `cetest_prefs.py`, `cetest_ce.py`, `cetest_app.py`,
`cetest_preprocess.py`) together with theorems settling the frozen claims.

Modelling conventions:
* Python `str` is Lean `String`; Python tuples are Lean products.
* Python dictionaries threaded through loops are association lists.
* Machine integers do not occur (CPython ints are unbounded); result codes are `Int`.
* Whitespace/lower-casing helpers model CPython behaviour on the ASCII range,
  which covers every character class the algorithms actually test for.
-/

namespace StdMinver

/-- Characters treated as whitespace by Python `str.strip()` / regex `\s`
(ASCII range). -/
def isPySpace (c : Char) : Bool :=
  c = ' ' || c = '\t' || c = '\n' || c = '\r' || c = '\x0b' || c = '\x0c'

/-- Python `str.strip()`: drop leading and trailing whitespace. -/
def pyStrip (s : String) : String :=
  ⟨((s.data.dropWhile isPySpace).reverse.dropWhile isPySpace).reverse⟩

/-- Python `str.lower()` (ASCII range). -/
def pyLower (s : String) : String :=
  ⟨s.data.map Char.toLower⟩

/-- Whether `pre` is a prefix of `l` (executable helper for substring search). -/
def isPrefixList : List Char → List Char → Bool
  | [], _ => true
  | _ :: _, [] => false
  | a :: as, b :: bs => a = b && isPrefixList as bs

/-- Whether `needle` occurs as a contiguous sublist of `hay`. -/
def hasSubList (needle : List Char) : List Char → Bool
  | [] => needle.isEmpty
  | c :: rest => isPrefixList needle (c :: rest) || hasSubList needle rest

/-- Python `needle in hay` for strings. -/
def strContains (hay needle : String) : Bool :=
  hasSubList needle.data hay.data

/-- Python `re.match(r"^\d", s)` viewed as a boolean: `s` starts with a digit. -/
def startsWithDigit (s : String) : Bool :=
  match s.data with
  | [] => false
  | c :: _ => c.isDigit

/-- Numeric value of a digit run (`int()` on a `\d+` regex group). -/
def natOfDigits (cs : List Char) : Nat :=
  cs.foldl (fun n c => n * 10 + (c.toNat - '0'.toNat)) 0

/-! ## `cetest_models.parse_semver_key` -/

/-- The "unversioned/bleeding-edge" tokens of `parse_semver_key`. -/
def bleedingTokens : List String :=
  ["trunk", "head", "git", "snapshot", "nightly", "tip"]

/-- The bleeding-edge test of `parse_semver_key`: the stripped, lowered string
contains one of the tokens and does not start with a digit. -/
def isBleedingEdge (s : String) : Bool :=
  let st := pyLower (pyStrip s)
  (bleedingTokens.any (fun k => strContains st k)) && !(startsWithDigit st)

/-- Result of matching `^\s*(\d+)(?:\.(\d+))?(?:\.(\d+))?(.*)$` against a
stripped string: the three numeric groups (group 2/3 optional) and the rest.
`none` when the regex does not match (no leading digits, or the tail contains a
newline that `(.*)$` cannot span). -/
def semverRegexMatch (t : List Char) : Option (Nat × Option Nat × Option Nat × List Char) :=
  let t1 := t.dropWhile isPySpace
  let d1 := t1.takeWhile Char.isDigit
  if d1.isEmpty then none
  else
    let r1 := t1.dropWhile Char.isDigit
    let (g2, r2) :=
      match r1 with
      | '.' :: u =>
        if (u.takeWhile Char.isDigit).isEmpty then (none, r1)
        else (some (natOfDigits (u.takeWhile Char.isDigit)), u.dropWhile Char.isDigit)
      | _ => (none, r1)
    let (g3, r3) :=
      match r2 with
      | '.' :: u =>
        if (u.takeWhile Char.isDigit).isEmpty then (none, r2)
        else (some (natOfDigits (u.takeWhile Char.isDigit)), u.dropWhile Char.isDigit)
      | _ => (none, r2)
    if r3.contains '\n' then none
    else some (natOfDigits d1, g2, g3, r3)

/-- `cetest_models.parse_semver_key` on a non-empty string (the main body). -/
def parseSemverStr (s : String) : Nat × Nat × Nat × Nat × String :=
  if isBleedingEdge s then
    (9999, 9999, 9999, 9999, pyLower (pyStrip s))
  else
    match semverRegexMatch (pyStrip s).data with
    | none => (0, 0, 0, 0, pyStrip s)
    | some (a, g2, g3, restChars) =>
      let rest := pyStrip ⟨restChars⟩
      let tweak := if strContains (pyLower rest) "trunk" || strContains (pyLower rest) "git" then 1 else 0
      (a, g2.getD 0, g3.getD 0, tweak, rest)

/-- `cetest_models.parse_semver_key` (argument may be `None` or empty). -/
def parse_semver_key : Option String → Nat × Nat × Nat × Nat × String
  | none => (0, 0, 0, 0, "")
  | some s => if s = "" then (0, 0, 0, 0, "") else parseSemverStr s

/-- Python tuple `<` on the 5-tuple sort keys (lexicographic; the last
component compares strings by code points, as CPython does). -/
def semverKeyLt (x y : Nat × Nat × Nat × Nat × String) : Prop :=
  x.1 < y.1 ∨ (x.1 = y.1 ∧
    (x.2.1 < y.2.1 ∨ (x.2.1 = y.2.1 ∧
      (x.2.2.1 < y.2.2.1 ∨ (x.2.2.1 = y.2.2.1 ∧
        (x.2.2.2.1 < y.2.2.2.1 ∨ (x.2.2.2.1 = y.2.2.2.1 ∧
          x.2.2.2.2 < y.2.2.2.2)))))))

instance (x y : Nat × Nat × Nat × Nat × String) : Decidable (semverKeyLt x y) := by
  unfold semverKeyLt
  infer_instance

/-! ## `cetest_prefs.LibraryRule` and `_effective_libraries_for_compiler` -/

/-- `cetest_prefs.LibraryRule`. -/
structure LibraryRule where
  scope : String
  target : String
  lib_id : String
  version : String
deriving DecidableEq, Repr

/-- `cetest_prefs._normalize_ce_library_id` (strip). -/
def normalize_ce_library_id (s : String) : String := pyStrip s

/-- `cetest_prefs._normalize_ce_library_version` (strip). -/
def normalize_ce_library_version (s : String) : String := pyStrip s

/-- State of the merge loop in `_effective_libraries_for_compiler`:
the `chosen_by_id` dict (association list) and the `order` list. -/
structure EffState where
  chosen : List (String × String)
  order : List String
deriving Repr

/-- Overwrite-or-append update of an association list (Python `d[k] = v`). -/
def setAssoc : List (String × String) → String → String → List (String × String)
  | [], k, v => [(k, v)]
  | (k', v') :: rest, k, v =>
    if k' = k then (k, v) :: rest else (k', v') :: setAssoc rest k v

/-- The inner `apply_rule` of `_effective_libraries_for_compiler`. -/
def apply_rule (st : EffState) (r : LibraryRule) : EffState :=
  let lid := normalize_ce_library_id r.lib_id
  let ver := normalize_ce_library_version r.version
  if lid = "" || ver = "" then st
  else
    { chosen := setAssoc st.chosen lid ver
      order := if (st.chosen.lookup lid).isSome then st.order else st.order ++ [lid] }

/-- Whether a rule matches for the stripped family/compiler-id pair, as tested
in the loop of `_effective_libraries_for_compiler`. -/
def ruleMatches (r : LibraryRule) (fam cid : String) : Bool :=
  r.scope = "all" || (r.scope = "family" && r.target = fam) || (r.scope = "compiler" && r.target = cid)

/-- Rendering of the final state: `[{"id": lid, "version": chosen[lid]} for lid
in order if lid in chosen]`. -/
def renderEffState (st : EffState) : List (String × String) :=
  st.order.filterMap (fun lid => (st.chosen.lookup lid).map (fun v => (lid, v)))

/-- `cetest_prefs._effective_libraries_for_compiler`: one pass over `rules` in
list order, applying each rule whose scope matches. -/
def effective_libraries_for_compiler (rules : List LibraryRule) (family compiler_id : String) :
    List (String × String) :=
  let fam := pyStrip family
  let cid := pyStrip compiler_id
  renderEffState (rules.foldl
    (fun st r => if ruleMatches r fam cid then apply_rule st r else st)
    ⟨[], []⟩)

/-- Modelled from the spec (§3 LibraryRule, for the refinement comparison of
the resolver claim): the matching rules taken in the priority order scope
`all`, then `family`, then `compiler`, merged last-writer-wins. -/
def effective_libraries_spec (rules : List LibraryRule) (family compiler_id : String) :
    List (String × String) :=
  let fam := pyStrip family
  let cid := pyStrip compiler_id
  let ordered :=
    rules.filter (fun r => r.scope = "all") ++
    rules.filter (fun r => r.scope = "family" && r.target = fam) ++
    rules.filter (fun r => r.scope = "compiler" && r.target = cid)
  renderEffState (ordered.foldl apply_rule ⟨[], []⟩)

/-! ## `cetest_ce`: attempts, summaries and the group prober

The remote compile service is modelled by an outcome environment
`env : Nat → CompileOutcome` giving, for each candidate index, what the
(cached, per-index memoized) compile call at that index observes. -/

/-- `cetest_core.CODE_TIMEOUT`. -/
def CODE_TIMEOUT : Int := -100

/-- `cetest_core.CODE_TRANSPORT_ERROR`. -/
def CODE_TRANSPORT_ERROR : Int := -101

/-- `cetest_core.CODE_ABORTED`. -/
def CODE_ABORTED : Int := -102

/-- `cetest_models.CompilerInfo`. -/
structure CompilerInfo where
  id : String
  name : String
  lang : String
  compiler_type : String
  semver : Option String
  instruction_set : Option String
deriving DecidableEq, Repr

/-- `cetest_ce.CeAttempt`. -/
structure CeAttempt where
  platform : String
  series : String
  compiler_type : String
  compiler_id : String
  compiler_name : String
  semver : Option String
  code : Int
  stderr_text : String
deriving DecidableEq, Repr

/-- `CeAttempt.ok`. -/
def CeAttempt.ok (a : CeAttempt) : Bool := a.code = 0

/-- `cetest_ce.CeGroupSummary`. -/
structure CeGroupSummary where
  platform : String
  series : String
  compiler_type : String
  highest_supported : Option CeAttempt
  lowest_supported : Option CeAttempt
  first_failure : Option CeAttempt
  attempts : List CeAttempt
  inconclusive_reason : Option String
deriving DecidableEq, Repr

/-- What one remote compile call at a candidate index observes, as seen by the
`test` closure of `_probe_group_binary`: a response whose `code` field is read,
a timeout (`TimeoutError`/`socket.timeout`), or any other transport exception. -/
inductive CompileOutcome where
  | compiled (code : Int) (stderrText : String)
  | timeout (msg : String)
  | transport (msg : String)
deriving DecidableEq, Repr

/-- Outcome is a compile with result code 0. -/
def CompileOutcome.isOk : CompileOutcome → Bool
  | .compiled c _ => c = 0
  | _ => false

/-- Outcome is a compile with a non-zero result code (compiler-reported failure). -/
def CompileOutcome.isFail : CompileOutcome → Bool
  | .compiled c _ => c ≠ 0
  | _ => false

/-- Outcome is a network/transport fault (timeout or other transport error). -/
def CompileOutcome.isFault : CompileOutcome → Bool
  | .compiled _ _ => false
  | _ => true

/-- Python `compilers[i]` (the algorithm only indexes within bounds). -/
def compilerAt (compilers : List CompilerInfo) (i : Nat) : CompilerInfo :=
  compilers.getD i ⟨"", "", "", "", none, none⟩

/-- The `CeAttempt` recorded by a fresh `test(i)` in `_probe_group_binary`. -/
def attemptOf (pl se fam : String) (compilers : List CompilerInfo)
    (env : Nat → CompileOutcome) (i : Nat) : CeAttempt :=
  let ci := compilerAt compilers i
  match env i with
  | .compiled code stderrText => ⟨pl, se, fam, ci.id, ci.name, ci.semver, code, stderrText⟩
  | .timeout msg => ⟨pl, se, fam, ci.id, ci.name, ci.semver, CODE_TIMEOUT, msg⟩
  | .transport msg => ⟨pl, se, fam, ci.id, ci.name, ci.semver, CODE_TRANSPORT_ERROR, msg⟩

/-- The value a fresh `test(i)` assigns to `inconclusive_reason` (`none` leaves
the cell untouched; the compile branch does not assign). -/
def reasonOf (compilers : List CompilerInfo) (env : Nat → CompileOutcome) (i : Nat) :
    Option String :=
  match env i with
  | .compiled _ _ => none
  | .timeout _ =>
    some ("Timeout talking to Compiler Explorer (compiler id=" ++ (compilerAt compilers i).id ++ ")")
  | .transport _ =>
    some ("Transport error talking to Compiler Explorer (compiler id=" ++ (compilerAt compilers i).id ++ ")")

/-- State of one `_probe_group_binary` call: the `attempts_by_idx` memo (kept
in insertion order, i.e. chronological compile order) and the
`inconclusive_reason` cell. -/
structure ProbeState where
  memo : List (Nat × CeAttempt)
  reason : Option String
deriving DecidableEq, Repr

/-- The `test(i)` closure of `_probe_group_binary`: memo hit returns the cached
attempt; a miss performs the compile, possibly assigns `inconclusive_reason`,
and memoizes the attempt. -/
def probeTest (pl se fam : String) (compilers : List CompilerInfo)
    (env : Nat → CompileOutcome) (st : ProbeState) (i : Nat) : ProbeState × CeAttempt :=
  match st.memo.lookup i with
  | some a => (st, a)
  | none =>
    let a := attemptOf pl se fam compilers env i
    let r := match reasonOf compilers env i with
      | some msg => some msg
      | none => st.reason
    (⟨st.memo ++ [(i, a)], r⟩, a)

/-- Python `[attempts_by_idx[i] for i in sorted(attempts_by_idx.keys())]`. -/
def sortedAttempts (st : ProbeState) : List CeAttempt :=
  ((st.memo.map Prod.fst).insertionSort (· ≤ ·)).filterMap (fun i => st.memo.lookup i)

/-- The `while high - low > 1` boundary binary-search loop of
`_probe_group_binary` (including the post-loop `test(low)`/`test(high)` and
final summary construction), returning the summary with the final state. -/
def probeLoop (pl se fam : String) (compilers : List CompilerInfo)
    (env : Nat → CompileOutcome) (newest : CeAttempt) (st : ProbeState)
    (low high : Nat) : CeGroupSummary × ProbeState :=
  if h : high - low ≤ 1 then
    let st1 := (probeTest pl se fam compilers env st low).1
    let lowest_ok := (probeTest pl se fam compilers env st low).2
    let st2 := (probeTest pl se fam compilers env st1 high).1
    let first_fail := (probeTest pl se fam compilers env st1 high).2
    if st2.reason.isSome then
      (⟨pl, se, fam, some newest, none, some first_fail, sortedAttempts st2, st2.reason⟩, st2)
    else
      (⟨pl, se, fam, some newest,
        if lowest_ok.ok then some lowest_ok else none,
        if !first_fail.ok then some first_fail else none,
        sortedAttempts st2, none⟩, st2)
  else
    let mid := (low + high) / 2
    let st' := (probeTest pl se fam compilers env st mid).1
    let am := (probeTest pl se fam compilers env st mid).2
    if st'.reason.isSome then
      (⟨pl, se, fam, some newest, none, some am, sortedAttempts st', st'.reason⟩, st')
    else if am.ok then
      probeLoop pl se fam compilers env newest st' mid high
    else
      probeLoop pl se fam compilers env newest st' low mid
termination_by high - low
decreasing_by
  all_goals omega

/-- `cetest_ce.CeProbeWorker._probe_group_binary`, returning the summary
together with the final probe state. -/
def probe_group_binary_full (pl se fam : String) (compilers : List CompilerInfo)
    (env : Nat → CompileOutcome) : CeGroupSummary × ProbeState :=
  let n := compilers.length
  let st0 : ProbeState := ⟨[], none⟩
  if n = 0 then
    (⟨pl, se, fam, none, none, none, [], none⟩, st0)
  else
    let st1 := (probeTest pl se fam compilers env st0 0).1
    let newest := (probeTest pl se fam compilers env st0 0).2
    if st1.reason.isSome then
      (⟨pl, se, fam, none, none, some newest, sortedAttempts st1, st1.reason⟩, st1)
    else if !newest.ok then
      (⟨pl, se, fam, none, none, some newest, [newest], none⟩, st1)
    else if n = 1 then
      (⟨pl, se, fam, some newest, some newest, none, [newest], none⟩, st1)
    else
      let st2 := (probeTest pl se fam compilers env st1 (n - 1)).1
      let oldest := (probeTest pl se fam compilers env st1 (n - 1)).2
      if st2.reason.isSome then
        (⟨pl, se, fam, some newest, none, some oldest, sortedAttempts st2, st2.reason⟩, st2)
      else if oldest.ok then
        (⟨pl, se, fam, some newest, some oldest, none, sortedAttempts st2, none⟩, st2)
      else
        probeLoop pl se fam compilers env newest st2 0 (n - 1)

/-- `_probe_group_binary`, summary only. -/
def probe_group_binary (pl se fam : String) (compilers : List CompilerInfo)
    (env : Nat → CompileOutcome) : CeGroupSummary :=
  (probe_group_binary_full pl se fam compilers env).1

/-- The group-level error-containment summary built by `CeProbeWorker.run`
when a non-cancellation exception escapes one group's probe. -/
def probe_error_summary (pl se fam msg : String) : CeGroupSummary :=
  ⟨pl, se, fam, none, none,
    some ⟨pl, se, fam, "", "(probe error)", none, CODE_TRANSPORT_ERROR, msg⟩,
    [], some ("Probe error: " ++ msg)⟩

/-- Invariant claimed for every produced summary: supported attempts have
result code 0 and first-failure attempts have a non-zero result code. -/
def summaryInv (S : CeGroupSummary) : Prop :=
  (∀ a, S.highest_supported = some a → a.code = 0) ∧
  (∀ a, S.lowest_supported = some a → a.code = 0) ∧
  (∀ a, S.first_failure = some a → a.code ≠ 0)

/-! ## `cetest_app`: report serialization round trip -/

/-- JSON-like values built by `summaries_to_report_dict` and consumed by
`report_dict_to_summaries` (Python dict / list / str / int / bool / None). -/
inductive JVal where
  | null
  | str (s : String)
  | int (n : Int)
  | bool (b : Bool)
  | arr (items : List JVal)
  | obj (fields : List (String × JVal))

/-- Python truthiness of a JSON value. -/
def JVal.truthy : JVal → Bool
  | .null => false
  | .str s => !(s == "")
  | .int n => !(n == 0)
  | .bool b => b
  | .arr l => !l.isEmpty
  | .obj l => !l.isEmpty

/-- Python `a or b`. -/
def JVal.pyOr (a b : JVal) : JVal := if a.truthy then a else b

/-- Python `is None` test. -/
def JVal.isNull : JVal → Bool
  | .null => true
  | _ => false

/-- Python `d.get(k)` (an absent key gives `None`). -/
def jget (d : List (String × JVal)) (k : String) : JVal :=
  match d.lookup k with
  | some v => v
  | none => .null

/-- Python `str()` on the values reachable in `report_dict_to_summaries`
(strings, ints, bools, `None`; the repr strings Python would produce for
lists/dicts are not modelled — those cases are unreachable on serializer
output, which never feeds a list/dict to `str`). -/
def pyStr : JVal → String
  | .null => "None"
  | .str s => s
  | .int n => toString n
  | .bool b => if b then "True" else "False"
  | .arr _ => ""
  | .obj _ => ""

/-- Python `int()` on the values reachable in `report_dict_to_summaries`
(ints and bools; the other cases raise in Python and are unreachable on
serializer output, modelled as 0). -/
def pyInt : JVal → Int
  | .int n => n
  | .bool b => if b then 1 else 0
  | _ => 0

/-- The inner `att_to_dict` of `summaries_to_report_dict`. -/
def att_to_dict (a : CeAttempt) : List (String × JVal) :=
  [("platform", .str a.platform),
   ("series", .str a.series),
   ("arch", .str a.platform),
   ("family", .str a.compiler_type),
   ("id", .str a.compiler_id),
   ("name", .str a.compiler_name),
   ("semver", match a.semver with | some s => .str s | none => .null),
   ("code", .int a.code),
   ("ok", .bool a.ok),
   ("stderr", .str a.stderr_text)]

/-- The inner `opt_att` of `summaries_to_report_dict`. -/
def opt_att : Option CeAttempt → JVal
  | none => .null
  | some a => .obj (att_to_dict a)

/-- `cetest_app.summaries_to_report_dict`. -/
def summaries_to_report_dict (standard : String) (summaries : List CeGroupSummary) :
    List (String × JVal) :=
  [("standard", .str standard),
   ("groups", .arr (summaries.map (fun s => .obj
     [("family", .str s.compiler_type),
      ("platform", .str s.platform),
      ("series", .str s.series),
      ("arch", .str s.platform),
      ("highest_supported", opt_att s.highest_supported),
      ("lowest_supported", opt_att s.lowest_supported),
      ("first_failure", opt_att s.first_failure),
      ("attempts", .arr (s.attempts.map (fun a => .obj (att_to_dict a)))),
      ("inconclusive_reason",
        match s.inconclusive_reason with | some r => .str r | none => .null)])))]

/-- The inner `dict_to_att` of `report_dict_to_summaries`. -/
def dict_to_att (x : List (String × JVal)) : CeAttempt :=
  { platform := pyStr (((jget x "platform").pyOr (jget x "arch")).pyOr (.str "unknown"))
    series := pyStr ((jget x "series").pyOr (.str "(unknown series)"))
    compiler_type := pyStr ((jget x "family").pyOr (.str "unknown"))
    compiler_id := pyStr ((jget x "id").pyOr (.str ""))
    compiler_name := pyStr ((jget x "name").pyOr (.str ""))
    semver := if (jget x "semver").isNull then none else some (pyStr (jget x "semver"))
    code := if (jget x "code").isNull then -1 else pyInt (jget x "code")
    stderr_text := pyStr ((jget x "stderr").pyOr (.str "")) }

/-- One group entry of `report_dict_to_summaries` (the body of the loop over
`groups`, applied to entries that are dicts; non-dict entries are skipped). -/
def dict_to_summary (gd : List (String × JVal)) : CeGroupSummary :=
  { compiler_type := pyStr ((jget gd "family").pyOr (.str "unknown"))
    platform := pyStr (((jget gd "platform").pyOr (jget gd "arch")).pyOr (.str "unknown"))
    series := pyStr ((jget gd "series").pyOr (.str "(unknown series)"))
    highest_supported :=
      match jget gd "highest_supported" with
      | .obj x => some (dict_to_att x)
      | _ => none
    lowest_supported :=
      match jget gd "lowest_supported" with
      | .obj x => some (dict_to_att x)
      | _ => none
    first_failure :=
      match jget gd "first_failure" with
      | .obj x => some (dict_to_att x)
      | _ => none
    attempts :=
      match jget gd "attempts" with
      | .arr atts =>
        if atts.all (fun a => match a with | .obj _ => true | _ => false) then
          atts.filterMap (fun a => match a with | .obj x => some (dict_to_att x) | _ => none)
        else []
      | _ => []
    inconclusive_reason :=
      if (jget gd "inconclusive_reason").isNull then none
      else some (pyStr (jget gd "inconclusive_reason")) }

/-- `cetest_app.report_dict_to_summaries`. -/
def report_dict_to_summaries (d : List (String × JVal)) : String × List CeGroupSummary :=
  let std := pyStr ((jget d "standard").pyOr (.str "c++17"))
  match jget d "groups" with
  | .arr groups =>
    (std, groups.filterMap (fun g =>
      match g with
      | .obj gd => some (dict_to_summary gd)
      | _ => none))
  | _ => (std, [])

/-- Attempt fields that survive the round trip without hitting a Python
falsy-string fallback. -/
def attemptSerializable (a : CeAttempt) : Bool :=
  !(a.platform == "") && !(a.series == "") && !(a.compiler_type == "")

/-- Summary fields that survive the round trip without hitting a Python
falsy-string fallback. -/
def summarySerializable (s : CeGroupSummary) : Bool :=
  !(s.platform == "") && !(s.series == "") && !(s.compiler_type == "") &&
  s.highest_supported.all attemptSerializable &&
  s.lowest_supported.all attemptSerializable &&
  s.first_failure.all attemptSerializable &&
  s.attempts.all attemptSerializable

/-! ## `cetest_preprocess`: include flattening

The filesystem is modelled as a finite map from normalized absolute path
strings to file contents; file contents are modelled as their
`splitlines(keepends=True)` line lists, and `expanduser`/`resolve`/`_norm_abs`
are the identity on these already-normalized paths. The
compile-commands database is absent (the claims pass `None`), so the search
list holds the already-resolved quote/user/extra include directories. -/

/-- The four flattening flags of `flatten_user_includes`. -/
structure FlattenFlags where
  inline_once : Bool
  strip_pragma_once : Bool
  emit_line_directives : Bool
  include_debug_comments : Bool
deriving DecidableEq, Repr

/-- Filesystem and include search context of one `flatten_user_includes`
call. -/
structure FlattenEnv where
  fs : List (String × List String)
  global_search : List String
deriving DecidableEq, Repr

/-- The set of existing (readable) file paths. -/
def fsKeys (env : FlattenEnv) : List String := env.fs.map Prod.fst

/-- Python `p.exists() and p.is_file()`. -/
def fileExists (env : FlattenEnv) (p : String) : Bool := (env.fs.lookup p).isSome

/-- The `_read_text(p).splitlines(True)` line list of a file. -/
def readLines (env : FlattenEnv) (p : String) : List String :=
  (env.fs.lookup p).getD []

/-- Python `Path(p).parent` on a normalized absolute path string. -/
def parentDir (p : String) : String :=
  ⟨((p.data.reverse.dropWhile (fun c => ¬ c = '/')).drop 1).reverse⟩

/-- Python `dir / name` on normalized path strings. -/
def pathJoin (dir name : String) : String := dir ++ "/" ++ name

/-- `cetest_preprocess._resolve_include`: the including file's directory
first, then each global search directory, first match wins. -/
def resolve_include (env : FlattenEnv) (name including_file : String) : Option String :=
  let cand := pathJoin (parentDir including_file) name
  if fileExists env cand then some cand
  else
    match env.global_search.find? (fun d => fileExists env (pathJoin d name)) with
    | some d => some (pathJoin d name)
    | none => none

/-- Regex `^\s*#\s*pragma\s+once\b` as a line test. -/
def matchPragmaOnce (line : String) : Bool :=
  match line.data.dropWhile isPySpace with
  | '#' :: r =>
    let r1 := r.dropWhile isPySpace
    isPrefixList ['p', 'r', 'a', 'g', 'm', 'a'] r1 &&
      (match r1.drop 6 with
       | c :: _ =>
         isPySpace c &&
           (let r3 := (r1.drop 6).dropWhile isPySpace
            isPrefixList ['o', 'n', 'c', 'e'] r3 &&
              (match r3.drop 4 with
               | [] => true
               | d :: _ => !(d.isAlphanum || d = '_')))
       | [] => false)
  | _ => false

/-- Regex `^\s*#\s*include\s*"([^"]+)"` (`_RE_INCLUDE_QUOTED`): the captured
include name, or `none` when the line is not a quoted include. -/
def matchIncludeQuoted (line : String) : Option String :=
  match line.data.dropWhile isPySpace with
  | '#' :: r =>
    let r1 := r.dropWhile isPySpace
    if isPrefixList ['i', 'n', 'c', 'l', 'u', 'd', 'e'] r1 then
      match (r1.drop 7).dropWhile isPySpace with
      | '"' :: rest =>
        let nm := rest.takeWhile (fun c => ¬ c = '"')
        if nm.isEmpty then none
        else
          match rest.dropWhile (fun c => ¬ c = '"') with
          | '"' :: _ => some ⟨nm⟩
          | _ => none
      | _ => none
    else none
  | _ => none

/-- `cetest_preprocess._escape_for_line`. -/
def escape_for_line (p : String) : String :=
  ⟨p.data.foldr (fun c acc =>
    if c = '\\' then '\\' :: '\\' :: acc
    else if c = '"' then '\\' :: '"' :: acc
    else c :: acc) []⟩

/-- Debug marker emitted on an include cycle. -/
def cycleMarker (p : String) : String :=
  "/* [cetest] include cycle detected: \"" ++ escape_for_line p ++ "\" */\n"

/-- Debug marker emitted on an `inline_once` duplicate skip. -/
def dupMarker (p : String) : String :=
  "/* [cetest] skipped duplicate include: \"" ++ escape_for_line p ++ "\" */\n"

/-- Debug marker emitted at the start of an inlined file. -/
def beginMarker (p : String) : String :=
  "/* [cetest] begin inlined file: " ++ escape_for_line p ++ " */\n"

/-- Debug marker emitted at the end of an inlined file. -/
def endMarker (p : String) : String :=
  "/* [cetest] end inlined file: " ++ escape_for_line p ++ " */\n"

/-- Debug marker emitted at an inlined include line. -/
def inlinedMarker (incName resolved : String) : String :=
  "/* [cetest] inlined: \"" ++ incName ++ "\" -> \"" ++ escape_for_line resolved ++ "\" */\n"

/-- A `#line N "path"` directive. -/
def lineDirective (n : Nat) (p : String) : String :=
  "#line " ++ toString n ++ " \"" ++ escape_for_line p ++ "\"\n"

/-- The flattening statistics counters. -/
structure FlattenStats where
  files_inlined : Nat
  include_lines_seen : Nat
  include_lines_inlined : Nat
  include_lines_unresolved : Nat
deriving DecidableEq, Repr

/-- Mutable state threaded through `_flatten_file`: the `inlined` set (kept in
insertion order) and the statistics counters. -/
structure FlattenState where
  inlined : List String
  stats : FlattenStats
deriving DecidableEq, Repr

/-- Python `set.add`. -/
def addToSet (l : List String) (p : String) : List String :=
  if l.contains p then l else l ++ [p]

/-- Concatenation of emitted pieces (Python `"".join(out)`). -/
def concatList : List String → String
  | [] => ""
  | s :: rest => s ++ concatList rest

/-- Number of existing files not on the active recursion stack (termination
measure of `_flatten_file`). -/
def keysLeft (env : FlattenEnv) (stack : List String) : Nat :=
  ((fsKeys env).dedup.filter (fun k => !stack.contains k)).length

/-- Filtering with a weaker predicate keeps at least as many elements. -/
theorem length_filter_mono {α : Type} (l : List α) (q r : α → Bool)
    (h : ∀ a, q a = true → r a = true) :
    (l.filter q).length ≤ (l.filter r).length := by
  induction l with
  | nil => exact Nat.le_refl _
  | cons a rest ih =>
    by_cases hq : q a = true
    · simp [List.filter_cons, hq, h a hq]
      omega
    · rw [Bool.not_eq_true] at hq
      by_cases hr : r a = true
      · simp [List.filter_cons, hq, hr]
        omega
      · rw [Bool.not_eq_true] at hr
        simpa [List.filter_cons, hq, hr] using ih

/-- Filtering with a strictly weaker predicate, witnessed by a member, keeps
strictly more elements. -/
theorem length_filter_lt {α : Type} (l : List α) (q r : α → Bool) (b : α)
    (h : ∀ a, q a = true → r a = true) (hb : b ∈ l) (hrb : r b = true)
    (hqb : q b = false) : (l.filter q).length < (l.filter r).length := by
  induction l with
  | nil => simp at hb
  | cons a rest ih =>
    rcases List.mem_cons.mp hb with hb | hb
    · subst hb
      simp only [List.filter_cons, hqb, hrb, if_true, Bool.false_eq_true, if_false]
      exact Nat.lt_succ_of_le (length_filter_mono rest q r h)
    · by_cases hq : q a = true
      · simp only [List.filter_cons, hq, h a hq, if_true, List.length_cons]
        exact Nat.succ_lt_succ (ih hb)
      · rw [Bool.not_eq_true] at hq
        by_cases hr : r a = true
        · simp only [List.filter_cons, hq, hr, if_true, Bool.false_eq_true, if_false,
            List.length_cons]
          exact Nat.lt_succ_of_lt (ih hb)
        · rw [Bool.not_eq_true] at hr
          simpa [List.filter_cons, hq, hr] using ih hb

/-- Pushing an existing, not-yet-stacked file onto the stack strictly shrinks
the termination measure. -/
theorem keysLeft_push_lt (env : FlattenEnv) (stack : List String) (p : String)
    (hp : p ∈ fsKeys env) (hps : p ∉ stack) :
    keysLeft env (stack ++ [p]) < keysLeft env stack := by
  refine length_filter_lt _ _ _ p ?_ (List.mem_dedup.mpr hp) ?_ ?_
  · intro a ha
    simp at ha ⊢
    exact ha.1
  · simp [hps]
  · simp

/-- The longest file length in the filesystem (bounds any single file's line
count, for the termination measure). -/
def maxLen (env : FlattenEnv) : Nat :=
  (env.fs.map (fun q => q.2.length)).foldr max 0

/-- A stored file's line count is bounded by the longest file length. -/
theorem lookup_lines_le (fs : List (String × List String)) (p : String) (v : List String)
    (h : fs.lookup p = some v) :
    v.length ≤ (fs.map (fun q => q.2.length)).foldr max 0 := by
  induction fs with
  | nil => simp [List.lookup] at h
  | cons q rest ih =>
    rcases q with ⟨a, w⟩
    by_cases hpa : (p == a) = true
    · simp only [List.lookup, hpa] at h
      injection h with h
      subst h
      simp only [List.map_cons, List.foldr_cons]
      exact Nat.le_max_left _ _
    · rw [Bool.not_eq_true] at hpa
      simp only [List.lookup, hpa] at h
      refine le_trans (ih h) ?_
      simp only [List.map_cons, List.foldr_cons]
      exact Nat.le_max_right _ _

/-- Membership of a pair makes the key lookup succeed (string maps). -/
theorem lookup_isSome_of_mem_pair {β : Type} (l : List (String × β)) (a : String) (v : β)
    (h : (a, v) ∈ l) : (l.lookup a).isSome = true := by
  induction l with
  | nil => simp at h
  | cons q rest ih =>
    rcases q with ⟨b, w⟩
    by_cases hab : (a == b) = true
    · simp [List.lookup, hab]
    · rw [Bool.not_eq_true] at hab
      rcases List.mem_cons.mp h with h | h
      · have : a = b := by
          have := congrArg Prod.fst h
          simpa using this
        rw [this] at hab
        simp at hab
      · simp only [List.lookup, hab]
        exact ih h

/-- The content of an existing file is bounded by the longest file length. -/
theorem readLines_le_maxLen (env : FlattenEnv) (p : String) (hp : p ∈ fsKeys env) :
    (readLines env p).length ≤ maxLen env := by
  rcases List.mem_map.mp hp with ⟨⟨a, v⟩, hmem, hfst⟩
  have ha : a = p := hfst
  subst ha
  have hs : (env.fs.lookup a).isSome = true := lookup_isSome_of_mem_pair env.fs a v hmem
  rcases Option.isSome_iff_exists.mp hs with ⟨w, hw⟩
  have hrl : readLines env a = w := by simp [readLines, hw]
  rw [hrl]
  exact lookup_lines_le env.fs a w hw

/-- A key with a successful lookup is one of the stored keys (string maps). -/
theorem mem_keys_str_of_lookup_isSome {β : Type} (l : List (String × β)) (k : String)
    (h : (l.lookup k).isSome = true) : k ∈ l.map Prod.fst := by
  induction l with
  | nil => simp [List.lookup] at h
  | cons q rest ih =>
    rcases q with ⟨a, b⟩
    by_cases hak : k = a
    · subst hak
      simp
    · have : (k == a) = false := by simp [hak]
      rw [List.map_cons]
      exact List.mem_cons_of_mem _ (ih (by simpa [List.lookup, this] using h))

/-- A resolved include names an existing file. -/
theorem resolve_include_mem (env : FlattenEnv) (name including_file r : String)
    (h : resolve_include env name including_file = some r) : r ∈ fsKeys env := by
  unfold resolve_include at h
  by_cases hc : fileExists env (pathJoin (parentDir including_file) name) = true
  · rw [if_pos hc] at h
    injection h with h
    subst h
    exact mem_keys_str_of_lookup_isSome _ _ hc
  · rw [Bool.not_eq_true] at hc
    rw [if_neg (by simp [hc])] at h
    cases hfind : env.global_search.find? (fun d => fileExists env (pathJoin d name)) with
    | none => rw [hfind] at h; cases h
    | some d =>
      rw [hfind] at h
      injection h with h
      subst h
      have hfe := List.find?_some hfind
      exact mem_keys_str_of_lookup_isSome _ _ hfe

mutual

/-- `cetest_preprocess._flatten_file` (the recursive inliner): cycle guard,
`inline_once` duplicate guard, then read the file and process its lines with
the file pushed on the stack. Returns the emitted text and the updated
state. -/
def flattenFile (fl : FlattenFlags) (env : FlattenEnv) (st : FlattenState)
    (stack : List String) (p : String) (hp : p ∈ fsKeys env) : String × FlattenState :=
  if hcyc : p ∈ stack then
    ((if fl.include_debug_comments then cycleMarker p else ""), st)
  else if fl.inline_once && st.inlined.contains p then
    ((if fl.include_debug_comments then dupMarker p else ""), st)
  else
    let st1 : FlattenState :=
      ⟨addToSet st.inlined p,
       { st.stats with files_inlined := st.stats.files_inlined + 1 }⟩
    let header :=
      (if fl.include_debug_comments then beginMarker p else "") ++
      (if fl.emit_line_directives then lineDirective 1 p else "")
    let res := flattenLines fl env st1 (stack ++ [p]) p 0 (readLines env p)
    (header ++ res.1 ++ (if fl.include_debug_comments then endMarker p else ""), res.2)
termination_by keysLeft env stack * (maxLen env + 2)
decreasing_by
  simp_wf
  have h1 : keysLeft env (stack ++ [p]) < keysLeft env stack :=
    keysLeft_push_lt env stack p hp hcyc
  have h2 : (readLines env p).length ≤ maxLen env := readLines_le_maxLen env p hp
  calc keysLeft env (stack ++ [p]) * (maxLen env + 2) + (readLines env p).length + 1
      < keysLeft env (stack ++ [p]) * (maxLen env + 2) + (maxLen env + 2) := by omega
    _ = (keysLeft env (stack ++ [p]) + 1) * (maxLen env + 2) := by ring
    _ ≤ keysLeft env stack * (maxLen env + 2) := Nat.mul_le_mul_right _ (by omega)

/-- The line loop of `_flatten_file`: strip `#pragma once` when requested,
inline resolved quoted includes recursively, pass other lines through. -/
def flattenLines (fl : FlattenFlags) (env : FlattenEnv) (st : FlattenState)
    (stack : List String) (p : String) (line_no : Nat) (lines : List String) :
    String × FlattenState :=
  match lines with
  | [] => ("", st)
  | line :: rest =>
    if fl.strip_pragma_once && matchPragmaOnce line then
      flattenLines fl env st stack p (line_no + 1) rest
    else
      match matchIncludeQuoted line with
      | none =>
        let res := flattenLines fl env st stack p (line_no + 1) rest
        (line ++ res.1, res.2)
      | some inc_name =>
        let stSeen : FlattenState :=
          ⟨st.inlined,
           { st.stats with include_lines_seen := st.stats.include_lines_seen + 1 }⟩
        match hres : resolve_include env inc_name p with
        | none =>
          let stU : FlattenState :=
            ⟨stSeen.inlined,
             { stSeen.stats with
                include_lines_unresolved := stSeen.stats.include_lines_unresolved + 1 }⟩
          let res := flattenLines fl env stU stack p (line_no + 1) rest
          (line ++ res.1, res.2)
        | some resolved =>
          let stI : FlattenState :=
            ⟨stSeen.inlined,
             { stSeen.stats with
                include_lines_inlined := stSeen.stats.include_lines_inlined + 1 }⟩
          let dbg := if fl.include_debug_comments then inlinedMarker inc_name resolved else ""
          let sub := flattenFile fl env stI stack resolved
            (resolve_include_mem env inc_name p resolved hres)
          let dir := if fl.emit_line_directives then lineDirective (line_no + 1 + 1) p else ""
          let res := flattenLines fl env sub.2 stack p (line_no + 1) rest
          (dbg ++ sub.1 ++ dir ++ res.1, res.2)
termination_by keysLeft env stack * (maxLen env + 2) + lines.length + 1
decreasing_by
  all_goals simp_wf
  all_goals omega

end

/-- `cetest_preprocess.flatten_user_includes` (with no compile-commands
database): fail when the root file does not exist, otherwise flatten from an
empty stack, empty inlined set and zeroed statistics. -/
def flatten_user_includes (fl : FlattenFlags) (env : FlattenEnv) (root_file : String) :
    Except String (String × FlattenState) :=
  if hroot : root_file ∈ fsKeys env then
    .ok (flattenFile fl env ⟨[], ⟨0, 0, 0, 0⟩⟩ [] root_file hroot)
  else
    .error ("File not found: " ++ root_file)

/-! ## Helper lemmas -/

/-- Folding a guarded step equals folding the unguarded step over the filter. -/
theorem foldl_guard_filter (p : LibraryRule → Bool) (l : List LibraryRule) (st : EffState) :
    l.foldl (fun st r => if p r then apply_rule st r else st) st
      = (l.filter p).foldl apply_rule st := by
  induction l generalizing st with
  | nil => rfl
  | cons r rest ih => by_cases h : p r <;> simp [List.filter_cons, h, ih]

/-- A memo hit returns the cached attempt and leaves the state unchanged. -/
theorem probeTest_hit (pl se fam : String) (compilers : List CompilerInfo)
    (env : Nat → CompileOutcome) (st : ProbeState) (i : Nat) (a : CeAttempt)
    (h : st.memo.lookup i = some a) :
    probeTest pl se fam compilers env st i = (st, a) := by
  simp [probeTest, h]

/-- A memo miss with a compile response appends the attempt and leaves the
reason cell unchanged. -/
theorem probeTest_miss_clean (pl se fam : String) (compilers : List CompilerInfo)
    (env : Nat → CompileOutcome) (st : ProbeState) (i : Nat)
    (h : st.memo.lookup i = none) (hr : reasonOf compilers env i = none) :
    probeTest pl se fam compilers env st i
      = (⟨st.memo ++ [(i, attemptOf pl se fam compilers env i)], st.reason⟩,
         attemptOf pl se fam compilers env i) := by
  simp [probeTest, h, hr]

/-- A memo miss with a network fault appends the attempt and overwrites the
reason cell. -/
theorem probeTest_miss_fault (pl se fam : String) (compilers : List CompilerInfo)
    (env : Nat → CompileOutcome) (st : ProbeState) (i : Nat) (m : String)
    (h : st.memo.lookup i = none) (hr : reasonOf compilers env i = some m) :
    probeTest pl se fam compilers env st i
      = (⟨st.memo ++ [(i, attemptOf pl se fam compilers env i)], some m⟩,
         attemptOf pl se fam compilers env i) := by
  simp [probeTest, h, hr]

/-- A fresh test assigns no reason exactly when the outcome is not a fault. -/
theorem reasonOf_eq_none_iff (compilers : List CompilerInfo) (env : Nat → CompileOutcome)
    (i : Nat) : reasonOf compilers env i = none ↔ (env i).isFault = false := by
  cases h : env i <;> simp [reasonOf, CompileOutcome.isFault, h]

/-- A successful outcome yields an attempt with `ok`. -/
theorem attemptOf_ok_of_isOk (pl se fam : String) (compilers : List CompilerInfo)
    (env : Nat → CompileOutcome) (i : Nat) (h : (env i).isOk = true) :
    (attemptOf pl se fam compilers env i).ok = true := by
  cases he : env i <;> simp [CompileOutcome.isOk, he] at h ⊢ <;>
    simp [attemptOf, CeAttempt.ok, he, h]

/-- A compiler-reported failure yields an attempt with `ok = false`. -/
theorem attemptOf_not_ok_of_isFail (pl se fam : String) (compilers : List CompilerInfo)
    (env : Nat → CompileOutcome) (i : Nat) (h : (env i).isFail = true) :
    (attemptOf pl se fam compilers env i).ok = false := by
  cases he : env i <;> simp [CompileOutcome.isFail, he] at h ⊢ <;>
    simp [attemptOf, CeAttempt.ok, he, h]

/-- A network fault yields an attempt with a negative sentinel code, hence
`ok = false`. -/
theorem attemptOf_not_ok_of_isFault (pl se fam : String) (compilers : List CompilerInfo)
    (env : Nat → CompileOutcome) (i : Nat) (h : (env i).isFault = true) :
    (attemptOf pl se fam compilers env i).ok = false := by
  cases he : env i <;> simp [CompileOutcome.isFault, he] at h ⊢ <;>
    simp [attemptOf, CeAttempt.ok, he, CODE_TIMEOUT, CODE_TRANSPORT_ERROR]

/-- Looking up a key that occurs in an association list succeeds. -/
theorem lookup_isSome_of_mem_keys (l : List (Nat × CeAttempt)) (i : Nat)
    (h : i ∈ l.map Prod.fst) : (l.lookup i).isSome := by
  induction l with
  | nil => simp at h
  | cons q rest ih =>
    rcases q with ⟨k, v⟩
    by_cases hik : i = k
    · simp [List.lookup, hik]
    · have hik' : (i == k) = false := by simp [hik]
      rw [List.map_cons] at h
      rcases List.mem_cons.mp h with h | h
      · exact absurd h hik
      · simpa [List.lookup, hik'] using ih h

/-- Filtering with a function that succeeds on every member keeps the length. -/
theorem length_filterMap_of_isSome {α β : Type} (f : α → Option β) (l : List α)
    (h : ∀ a ∈ l, (f a).isSome) : (l.filterMap f).length = l.length := by
  induction l with
  | nil => rfl
  | cons a rest ih =>
    have ha := h a (by simp)
    rcases Option.isSome_iff_exists.mp ha with ⟨b, hb⟩
    simp [List.filterMap_cons, hb, ih (fun x hx => h x (by simp [hx]))]

/-- The sorted attempts list has one entry per memoized index. -/
theorem length_sortedAttempts (st : ProbeState) :
    (sortedAttempts st).length = st.memo.length := by
  unfold sortedAttempts
  have hperm := List.perm_insertionSort (α := Nat) (· ≤ ·) (st.memo.map Prod.fst)
  rw [length_filterMap_of_isSome _ _
    (fun i hi => lookup_isSome_of_mem_keys st.memo i (hperm.mem_iff.mp hi))]
  rw [hperm.length_eq, List.length_map]

/-- Sorted attempts of a single-entry memo. -/
theorem sortedAttempts_single (a : CeAttempt) (r : Option String) :
    sortedAttempts ⟨[(0, a)], r⟩ = [a] := rfl

/-- Sorted attempts of the two-entry memo `{0, m}` with `m ≠ 0`. -/
theorem sortedAttempts_pair (a b : CeAttempt) (m : Nat) (hm : m ≠ 0) (r : Option String) :
    sortedAttempts ⟨[(0, a), (m, b)], r⟩ = [a, b] := by
  have hm' : (m == 0) = false := by simp [hm]
  simp [sortedAttempts, List.insertionSort, List.orderedInsert, List.lookup, hm',
    List.filterMap_cons]

/-- A successful association-list lookup comes from a member entry. -/
theorem mem_of_lookup_eq_some (l : List (Nat × CeAttempt)) (i : Nat) (a : CeAttempt)
    (h : l.lookup i = some a) : (i, a) ∈ l := by
  induction l with
  | nil => simp [List.lookup] at h
  | cons q rest ih =>
    rcases q with ⟨j, v⟩
    by_cases hij : i = j
    · subst hij
      simp [List.lookup] at h
      simp [h]
    · have hij' : (i == j) = false := by simp [hij]
      simp [List.lookup, hij'] at h
      exact List.mem_cons_of_mem _ (ih h)

/-- A successful lookup key is one of the stored keys. -/
theorem mem_keys_of_lookup_eq_some (l : List (Nat × CeAttempt)) (i : Nat) (a : CeAttempt)
    (h : l.lookup i = some a) : i ∈ l.map Prod.fst :=
  List.mem_map.mpr ⟨(i, a), mem_of_lookup_eq_some l i a h, rfl⟩

/-- In a memo whose entries all record the canonical attempt of their index,
the lookup of a stored key is the canonical attempt. -/
theorem lookup_consistent (pl se fam : String) (compilers : List CompilerInfo)
    (env : Nat → CompileOutcome) (memo : List (Nat × CeAttempt)) (i : Nat)
    (hmemo : ∀ q ∈ memo, q.2 = attemptOf pl se fam compilers env q.1)
    (hmem : i ∈ memo.map Prod.fst) :
    memo.lookup i = some (attemptOf pl se fam compilers env i) := by
  rcases Option.isSome_iff_exists.mp (lookup_isSome_of_mem_keys memo i hmem) with ⟨a, ha⟩
  have := hmemo _ (mem_of_lookup_eq_some memo i a ha)
  rw [ha]
  exact congrArg some this

/-- Compiled outcomes are not faults. -/
theorem not_isFault_of_isOk (o : CompileOutcome) (h : o.isOk = true) : o.isFault = false := by
  cases o <;> simp_all [CompileOutcome.isOk, CompileOutcome.isFault]

/-- Compiler-reported failures are not faults. -/
theorem not_isFault_of_isFail (o : CompileOutcome) (h : o.isFail = true) : o.isFault = false := by
  cases o <;> simp_all [CompileOutcome.isFail, CompileOutcome.isFault]

/-- Boundary correctness and call-count bound of the binary-search loop of
`_probe_group_binary`: with per-index outcomes OK up to `k` and FAIL above `k`,
a loop state whose memo is canonical and already contains `low` and `high`,
with `low ≤ k < high ≤ n - 1`, ends with `lowest_supported` at index `k`,
`first_failure` at index `k + 1`, no inconclusive reason, and at most
`⌈log₂ (high - low)⌉` additional compiled indices. -/
theorem probeLoop_boundary (pl se fam : String) (compilers : List CompilerInfo)
    (env : Nat → CompileOutcome) (k : Nat) (newest : CeAttempt)
    (henvok : ∀ i, i ≤ k → (env i).isOk = true)
    (henvfail : ∀ i, k < i → i < compilers.length → (env i).isFail = true) :
    ∀ g st low high, high - low = g → st.reason = none →
    (∀ q ∈ st.memo, q.2 = attemptOf pl se fam compilers env q.1) →
    low ∈ st.memo.map Prod.fst → high ∈ st.memo.map Prod.fst →
    low ≤ k → k < high → high ≤ compilers.length - 1 →
    (probeLoop pl se fam compilers env newest st low high).1
      = ⟨pl, se, fam, some newest,
          some (attemptOf pl se fam compilers env k),
          some (attemptOf pl se fam compilers env (k + 1)),
          sortedAttempts (probeLoop pl se fam compilers env newest st low high).2, none⟩ ∧
    ((probeLoop pl se fam compilers env newest st low high).2).memo.length
      ≤ st.memo.length + Nat.clog 2 (high - low) ∧
    (∀ q ∈ ((probeLoop pl se fam compilers env newest st low high).2).memo,
      q.2 = attemptOf pl se fam compilers env q.1) := by
  intro g
  induction g using Nat.strong_induction_on with
  | _ g ih =>
    intro st low high hg hreason hmemo hlowmem hhighmem hlk hkh hhn
    by_cases hle : high - low ≤ 1
    · have hlow_eq : low = k := by omega
      have hhigh_eq : high = k + 1 := by omega
      have hokl : (attemptOf pl se fam compilers env low).ok = true :=
        attemptOf_ok_of_isOk pl se fam compilers env low (henvok low hlk)
      have hokh : (attemptOf pl se fam compilers env high).ok = false := by
        refine attemptOf_not_ok_of_isFail pl se fam compilers env high (henvfail high hkh ?_)
        omega
      rw [probeLoop, dif_pos hle]
      simp only [probeTest_hit pl se fam compilers env st low _
        (lookup_consistent pl se fam compilers env st.memo low hmemo hlowmem),
        probeTest_hit pl se fam compilers env st high _
        (lookup_consistent pl se fam compilers env st.memo high hmemo hhighmem),
        hreason, Option.isSome_none, Bool.false_eq_true, if_false, hokl, hokh,
        Bool.not_false, if_true]
      refine ⟨?_, Nat.le_add_right _ _, hmemo⟩
      rw [hlow_eq, hhigh_eq]
    · have h2 : 2 ≤ high - low := by omega
      have hmlo : low < (low + high) / 2 := by omega
      have hmhi : (low + high) / 2 < high := by omega
      have hmidn : (low + high) / 2 < compilers.length := by omega
      have hclog : Nat.clog 2 (high - low)
          = Nat.clog 2 ((high - low + 1) / 2) + 1 := by
        have := Nat.clog_of_two_le (b := 2) (n := high - low) (by norm_num) h2
        simpa using this
      rw [probeLoop, dif_neg hle]
      cases hlkmid : st.memo.lookup ((low + high) / 2) with
      | some a =>
        have ha : a = attemptOf pl se fam compilers env ((low + high) / 2) :=
          hmemo _ (mem_of_lookup_eq_some _ _ _ hlkmid)
        simp only [probeTest_hit pl se fam compilers env st ((low + high) / 2) a hlkmid,
          hreason, Option.isSome_none, Bool.false_eq_true, if_false]
        subst ha
        by_cases hcase : (low + high) / 2 ≤ k
        · have hamok : (attemptOf pl se fam compilers env ((low + high) / 2)).ok = true :=
            attemptOf_ok_of_isOk pl se fam compilers env _ (henvok _ hcase)
          rw [if_pos hamok]
          obtain ⟨c1, c2, c3⟩ := ih (high - (low + high) / 2) (by omega) st ((low + high) / 2)
            high rfl hreason hmemo
            (mem_keys_of_lookup_eq_some _ _ _ hlkmid) hhighmem hcase hkh hhn
          refine ⟨c1, le_trans c2 ?_, c3⟩
          have : Nat.clog 2 (high - (low + high) / 2) ≤ Nat.clog 2 (high - low) :=
            Nat.clog_mono_right 2 (by omega)
          omega
        · have hamok : (attemptOf pl se fam compilers env ((low + high) / 2)).ok = false := by
            refine attemptOf_not_ok_of_isFail pl se fam compilers env _
              (henvfail _ (by omega) hmidn)
          rw [if_neg (by simp [hamok])]
          obtain ⟨c1, c2, c3⟩ := ih ((low + high) / 2 - low) (by omega) st low
            ((low + high) / 2) rfl hreason hmemo hlowmem
            (mem_keys_of_lookup_eq_some _ _ _ hlkmid) hlk (by omega) (by omega)
          refine ⟨c1, le_trans c2 ?_, c3⟩
          have : Nat.clog 2 ((low + high) / 2 - low) ≤ Nat.clog 2 (high - low) :=
            Nat.clog_mono_right 2 (by omega)
          omega
      | none =>
        have hrm : reasonOf compilers env ((low + high) / 2) = none := by
          rw [reasonOf_eq_none_iff]
          rcases le_or_lt ((low + high) / 2) k with hc | hc
          · exact not_isFault_of_isOk _ (henvok _ hc)
          · exact not_isFault_of_isFail _ (henvfail _ hc hmidn)
        simp only [probeTest_miss_clean pl se fam compilers env st ((low + high) / 2) hlkmid
          hrm, hreason, Option.isSome_none, Bool.false_eq_true, if_false]
        have hmemo' : ∀ q ∈ st.memo ++
            [((low + high) / 2, attemptOf pl se fam compilers env ((low + high) / 2))],
            q.2 = attemptOf pl se fam compilers env q.1 := by
          intro q hq
          rcases List.mem_append.mp hq with hq | hq
          · exact hmemo q hq
          · simp at hq
            rw [hq]
        have hmidkeys : (low + high) / 2 ∈
            (st.memo ++
              [((low + high) / 2, attemptOf pl se fam compilers env ((low + high) / 2))]).map
              Prod.fst := by
          simp
        have hlen' : (st.memo ++
            [((low + high) / 2, attemptOf pl se fam compilers env ((low + high) / 2))]).length
            = st.memo.length + 1 := by simp
        by_cases hcase : (low + high) / 2 ≤ k
        · have hamok : (attemptOf pl se fam compilers env ((low + high) / 2)).ok = true :=
            attemptOf_ok_of_isOk pl se fam compilers env _ (henvok _ hcase)
          rw [if_pos hamok]
          obtain ⟨c1, c2, c3⟩ := ih (high - (low + high) / 2) (by omega)
            ⟨st.memo ++
              [((low + high) / 2, attemptOf pl se fam compilers env ((low + high) / 2))], none⟩
            ((low + high) / 2) high rfl rfl hmemo' hmidkeys
            (by rw [List.map_append]; exact List.mem_append_left _ hhighmem) hcase hkh hhn
          refine ⟨c1, le_trans c2 ?_, c3⟩
          simp only [hlen']
          have : Nat.clog 2 (high - (low + high) / 2) ≤ Nat.clog 2 ((high - low + 1) / 2) :=
            Nat.clog_mono_right 2 (by omega)
          omega
        · have hamok : (attemptOf pl se fam compilers env ((low + high) / 2)).ok = false := by
            refine attemptOf_not_ok_of_isFail pl se fam compilers env _
              (henvfail _ (by omega) hmidn)
          rw [if_neg (by simp [hamok])]
          obtain ⟨c1, c2, c3⟩ := ih ((low + high) / 2 - low) (by omega)
            ⟨st.memo ++
              [((low + high) / 2, attemptOf pl se fam compilers env ((low + high) / 2))], none⟩
            low ((low + high) / 2) rfl rfl hmemo'
            (by rw [List.map_append]; exact List.mem_append_left _ hlowmem) hmidkeys
            hlk (by omega) (by omega)
          refine ⟨c1, le_trans c2 ?_, c3⟩
          simp only [hlen']
          have : Nat.clog 2 ((low + high) / 2 - low) ≤ Nat.clog 2 ((high - low + 1) / 2) :=
            Nat.clog_mono_right 2 (by omega)
          omega

/-- A network fault always produces an inconclusive reason message. -/
theorem reasonOf_isSome_of_isFault (compilers : List CompilerInfo)
    (env : Nat → CompileOutcome) (i : Nat) (h : (env i).isFault = true) :
    (reasonOf compilers env i).isSome = true := by
  cases he : env i
  · rw [he] at h
    simp [CompileOutcome.isFault] at h
  · simp [reasonOf, he]
  · simp [reasonOf, he]

/-- Case analysis of the binary-search loop under an arbitrary outcome
environment: starting from a fault-free canonical state that already contains
`low` and `high`, the loop either finishes fault-free with self-guarded
supported/failure fields, or stops at the first fresh network fault, reporting
exactly that attempt as `first_failure` with the fault's reason and no
`lowest_supported`. -/
theorem probeLoop_cases (pl se fam : String) (compilers : List CompilerInfo)
    (env : Nat → CompileOutcome) (newest : CeAttempt) :
    ∀ g st low high, high - low = g → st.reason = none →
    (∀ q ∈ st.memo, q.2 = attemptOf pl se fam compilers env q.1) →
    (∀ q ∈ st.memo, (env q.1).isFault = false) →
    low ∈ st.memo.map Prod.fst → high ∈ st.memo.map Prod.fst →
    (∀ q ∈ (probeLoop pl se fam compilers env newest st low high).2.memo,
      q.2 = attemptOf pl se fam compilers env q.1) ∧
    (((probeLoop pl se fam compilers env newest st low high).1.inconclusive_reason = none ∧
      (∀ q ∈ (probeLoop pl se fam compilers env newest st low high).2.memo,
        (env q.1).isFault = false) ∧
      (probeLoop pl se fam compilers env newest st low high).1.highest_supported
        = some newest ∧
      ((probeLoop pl se fam compilers env newest st low high).1.lowest_supported = none ∨
        ∃ a, (probeLoop pl se fam compilers env newest st low high).1.lowest_supported
          = some a ∧ a.ok = true) ∧
      ((probeLoop pl se fam compilers env newest st low high).1.first_failure = none ∨
        ∃ a, (probeLoop pl se fam compilers env newest st low high).1.first_failure
          = some a ∧ a.ok = false)) ∨
     (∃ i, (env i).isFault = true ∧
       (probeLoop pl se fam compilers env newest st low high).2.memo.getLast?
         = some (i, attemptOf pl se fam compilers env i) ∧
       (∀ q ∈ (probeLoop pl se fam compilers env newest st low high).2.memo.dropLast,
         (env q.1).isFault = false) ∧
       (probeLoop pl se fam compilers env newest st low high).1
         = ⟨pl, se, fam, some newest, none, some (attemptOf pl se fam compilers env i),
             sortedAttempts (probeLoop pl se fam compilers env newest st low high).2,
             reasonOf compilers env i⟩)) := by
  intro g
  induction g using Nat.strong_induction_on with
  | _ g ih =>
    intro st low high hg hreason hmemo hnofault hlowmem hhighmem
    by_cases hle : high - low ≤ 1
    · rw [probeLoop, dif_pos hle]
      simp only [probeTest_hit pl se fam compilers env st low _
        (lookup_consistent pl se fam compilers env st.memo low hmemo hlowmem),
        probeTest_hit pl se fam compilers env st high _
        (lookup_consistent pl se fam compilers env st.memo high hmemo hhighmem),
        hreason, Option.isSome_none, Bool.false_eq_true, if_false]
      refine ⟨hmemo, Or.inl ⟨by trivial, hnofault, by trivial, ?_, ?_⟩⟩
      · by_cases h : (attemptOf pl se fam compilers env low).ok = true
        · exact Or.inr ⟨_, by simp [h], h⟩
        · simp only [h, if_false]
          exact Or.inl rfl
      · by_cases h : (attemptOf pl se fam compilers env high).ok = true
        · simp only [h, Bool.not_true, Bool.false_eq_true, if_false]
          exact Or.inl (by trivial)
        · rw [Bool.not_eq_true] at h
          exact Or.inr ⟨_, by simp [h], h⟩
    · rw [probeLoop, dif_neg hle]
      cases hlkmid : st.memo.lookup ((low + high) / 2) with
      | some a =>
        have ha : a = attemptOf pl se fam compilers env ((low + high) / 2) :=
          hmemo _ (mem_of_lookup_eq_some _ _ _ hlkmid)
        simp only [probeTest_hit pl se fam compilers env st ((low + high) / 2) a hlkmid,
          hreason, Option.isSome_none, Bool.false_eq_true, if_false]
        have hmidmem : (low + high) / 2 ∈ st.memo.map Prod.fst :=
          mem_keys_of_lookup_eq_some _ _ _ hlkmid
        by_cases hok : a.ok = true
        · rw [if_pos hok]
          exact ih (high - (low + high) / 2) (by omega) st ((low + high) / 2) high rfl
            hreason hmemo hnofault hmidmem hhighmem
        · rw [if_neg (by simp [hok])]
          exact ih ((low + high) / 2 - low) (by omega) st low ((low + high) / 2) rfl
            hreason hmemo hnofault hlowmem hmidmem
      | none =>
        cases hfault : (env ((low + high) / 2)).isFault with
        | false =>
          have hrm : reasonOf compilers env ((low + high) / 2) = none :=
            (reasonOf_eq_none_iff compilers env _).mpr hfault
          simp only [probeTest_miss_clean pl se fam compilers env st ((low + high) / 2)
            hlkmid hrm, hreason, Option.isSome_none, Bool.false_eq_true, if_false]
          have hmemo' : ∀ q ∈ st.memo ++
              [((low + high) / 2, attemptOf pl se fam compilers env ((low + high) / 2))],
              q.2 = attemptOf pl se fam compilers env q.1 := by
            intro q hq
            rcases List.mem_append.mp hq with hq | hq
            · exact hmemo q hq
            · simp at hq
              rw [hq]
          have hnofault' : ∀ q ∈ st.memo ++
              [((low + high) / 2, attemptOf pl se fam compilers env ((low + high) / 2))],
              (env q.1).isFault = false := by
            intro q hq
            rcases List.mem_append.mp hq with hq | hq
            · exact hnofault q hq
            · simp at hq
              rw [hq]
              exact hfault
          have hmidkeys : (low + high) / 2 ∈
              (st.memo ++
                [((low + high) / 2,
                  attemptOf pl se fam compilers env ((low + high) / 2))]).map Prod.fst := by
            simp
          by_cases hok : (attemptOf pl se fam compilers env ((low + high) / 2)).ok = true
          · rw [if_pos hok]
            exact ih (high - (low + high) / 2) (by omega)
              ⟨st.memo ++
                [((low + high) / 2, attemptOf pl se fam compilers env ((low + high) / 2))],
               none⟩ ((low + high) / 2) high rfl rfl hmemo' hnofault' hmidkeys
              (by rw [List.map_append]; exact List.mem_append_left _ hhighmem)
          · rw [if_neg (by simp [hok])]
            exact ih ((low + high) / 2 - low) (by omega)
              ⟨st.memo ++
                [((low + high) / 2, attemptOf pl se fam compilers env ((low + high) / 2))],
               none⟩ low ((low + high) / 2) rfl rfl hmemo' hnofault'
              (by rw [List.map_append]; exact List.mem_append_left _ hlowmem) hmidkeys
        | true =>
          rcases Option.isSome_iff_exists.mp
            (reasonOf_isSome_of_isFault compilers env _ hfault) with ⟨m, hm⟩
          simp only [probeTest_miss_fault pl se fam compilers env st ((low + high) / 2) m
            hlkmid hm, Option.isSome_some, if_true]
          constructor
          · intro q hq
            rcases List.mem_append.mp hq with hq | hq
            · exact hmemo q hq
            · simp at hq
              rw [hq]
          · refine Or.inr ⟨(low + high) / 2, hfault, ?_, ?_, ?_⟩
            · exact List.getLast?_concat _
            · rw [List.dropLast_concat]
              exact hnofault
            · rw [hm]

/-- Case analysis of a whole `_probe_group_binary` call under an arbitrary
outcome environment: the final memo is canonical, and the run either saw no
network fault (no inconclusive reason, self-guarded supported/failure fields)
or stopped at the first fresh network fault (that attempt is the last compiled
one and is reported as `first_failure` with the fault's reason set and
`lowest_supported = None`). -/
theorem probe_full_spec (pl se fam : String) (compilers : List CompilerInfo)
    (env : Nat → CompileOutcome) :
    (∀ q ∈ (probe_group_binary_full pl se fam compilers env).2.memo,
      q.2 = attemptOf pl se fam compilers env q.1) ∧
    (((probe_group_binary_full pl se fam compilers env).1.inconclusive_reason = none ∧
      (∀ q ∈ (probe_group_binary_full pl se fam compilers env).2.memo,
        (env q.1).isFault = false) ∧
      ((probe_group_binary_full pl se fam compilers env).1.highest_supported = none ∨
        ∃ a, (probe_group_binary_full pl se fam compilers env).1.highest_supported
          = some a ∧ a.ok = true) ∧
      ((probe_group_binary_full pl se fam compilers env).1.lowest_supported = none ∨
        ∃ a, (probe_group_binary_full pl se fam compilers env).1.lowest_supported
          = some a ∧ a.ok = true) ∧
      ((probe_group_binary_full pl se fam compilers env).1.first_failure = none ∨
        ∃ a, (probe_group_binary_full pl se fam compilers env).1.first_failure
          = some a ∧ a.ok = false)) ∨
     (∃ i, (env i).isFault = true ∧
       (probe_group_binary_full pl se fam compilers env).2.memo.getLast?
         = some (i, attemptOf pl se fam compilers env i) ∧
       (∀ q ∈ (probe_group_binary_full pl se fam compilers env).2.memo.dropLast,
         (env q.1).isFault = false) ∧
       (probe_group_binary_full pl se fam compilers env).1.first_failure
         = some (attemptOf pl se fam compilers env i) ∧
       (probe_group_binary_full pl se fam compilers env).1.inconclusive_reason
         = reasonOf compilers env i ∧
       (probe_group_binary_full pl se fam compilers env).1.lowest_supported = none ∧
       ((probe_group_binary_full pl se fam compilers env).1.highest_supported = none ∨
         ∃ a, (probe_group_binary_full pl se fam compilers env).1.highest_supported
           = some a ∧ a.ok = true))) := by
  by_cases hn : compilers.length = 0
  · simp [probe_group_binary_full, hn]
  · cases hf0 : (env 0).isFault with
    | true =>
      rcases Option.isSome_iff_exists.mp
        (reasonOf_isSome_of_isFault compilers env 0 hf0) with ⟨m, hm⟩
      simp only [probe_group_binary_full, hn, if_false,
        probeTest_miss_fault pl se fam compilers env ⟨[], none⟩ 0 m rfl hm,
        List.nil_append, Option.isSome_some, if_true]
      refine ⟨?_, Or.inr ⟨0, hf0, by trivial, by simp, by trivial, by rw [hm],
        by trivial, Or.inl (by trivial)⟩⟩
      intro q hq
      simp only [List.mem_singleton] at hq
      rw [hq]
    | false =>
      have hr0 : reasonOf compilers env 0 = none :=
        (reasonOf_eq_none_iff compilers env 0).mpr hf0
      simp only [probe_group_binary_full, hn, if_false,
        probeTest_miss_clean pl se fam compilers env ⟨[], none⟩ 0 rfl hr0,
        List.nil_append, Option.isSome_none, Bool.false_eq_true, if_false]
      by_cases hok0 : (attemptOf pl se fam compilers env 0).ok = true
      · simp only [hok0, Bool.not_true, Bool.false_eq_true, if_false]
        by_cases hn1 : compilers.length = 1
        · simp only [hn1, if_true]
          refine ⟨?_, Or.inl ⟨by trivial, ?_, Or.inr ⟨_, by trivial, hok0⟩,
            Or.inr ⟨_, by trivial, hok0⟩, Or.inl (by trivial)⟩⟩
          · intro q hq
            simp only [List.mem_singleton] at hq
            rw [hq]
          · intro q hq
            simp only [List.mem_singleton] at hq
            rw [hq]
            exact hf0
        · simp only [hn1, if_false]
          have hm0 : compilers.length - 1 ≠ 0 := by omega
          have hlkN : ([(0, attemptOf pl se fam compilers env 0)] :
              List (Nat × CeAttempt)).lookup (compilers.length - 1) = none := by
            have : (compilers.length - 1 == 0) = false := by simp [hm0]
            simp [List.lookup, this]
          cases hfN : (env (compilers.length - 1)).isFault with
          | true =>
            rcases Option.isSome_iff_exists.mp
              (reasonOf_isSome_of_isFault compilers env _ hfN) with ⟨m, hm⟩
            simp only [probeTest_miss_fault pl se fam compilers env
              ⟨[(0, attemptOf pl se fam compilers env 0)], none⟩ (compilers.length - 1) m
              hlkN hm, Option.isSome_some, if_true]
            refine ⟨?_, Or.inr ⟨compilers.length - 1, hfN, ?_, ?_, by trivial, by rw [hm],
              by trivial, Or.inr ⟨_, by trivial, hok0⟩⟩⟩
            · intro q hq
              rcases List.mem_append.mp hq with hq | hq
              · simp only [List.mem_singleton] at hq
                rw [hq]
              · simp only [List.mem_singleton] at hq
                rw [hq]
            · exact List.getLast?_concat _
            · rw [List.dropLast_concat]
              intro q hq
              simp only [List.mem_singleton] at hq
              rw [hq]
              exact hf0
          | false =>
            have hrN : reasonOf compilers env (compilers.length - 1) = none :=
              (reasonOf_eq_none_iff compilers env _).mpr hfN
            simp only [probeTest_miss_clean pl se fam compilers env
              ⟨[(0, attemptOf pl se fam compilers env 0)], none⟩ (compilers.length - 1)
              hlkN hrN, Option.isSome_none, Bool.false_eq_true, if_false]
            have hmemo2 : ∀ q ∈ ([(0, attemptOf pl se fam compilers env 0),
                (compilers.length - 1,
                 attemptOf pl se fam compilers env (compilers.length - 1))] :
                List (Nat × CeAttempt)),
                q.2 = attemptOf pl se fam compilers env q.1 := by
              intro q hq
              simp only [List.mem_cons, List.not_mem_nil, or_false] at hq
              rcases hq with hq | hq
              · rw [hq]
              · rw [hq]
            have hnofault2 : ∀ q ∈ ([(0, attemptOf pl se fam compilers env 0),
                (compilers.length - 1,
                 attemptOf pl se fam compilers env (compilers.length - 1))] :
                List (Nat × CeAttempt)),
                (env q.1).isFault = false := by
              intro q hq
              simp only [List.mem_cons, List.not_mem_nil, or_false] at hq
              rcases hq with hq | hq
              · rw [hq]
                exact hf0
              · rw [hq]
                exact hfN
            by_cases hokN : (attemptOf pl se fam compilers env (compilers.length - 1)).ok
              = true
            · simp only [hokN, if_true, List.singleton_append]
              exact ⟨hmemo2, Or.inl ⟨by trivial, hnofault2, Or.inr ⟨_, by trivial, hok0⟩,
                Or.inr ⟨_, by trivial, hokN⟩, Or.inl (by trivial)⟩⟩
            · simp only [hokN, Bool.false_eq_true, if_false, List.singleton_append]
              obtain ⟨lc, lcase⟩ := probeLoop_cases pl se fam compilers env
                (attemptOf pl se fam compilers env 0) (compilers.length - 1 - 0)
                ⟨[(0, attemptOf pl se fam compilers env 0),
                  (compilers.length - 1,
                   attemptOf pl se fam compilers env (compilers.length - 1))], none⟩
                0 (compilers.length - 1) rfl rfl hmemo2 hnofault2 (by simp) (by simp)
              refine ⟨lc, ?_⟩
              rcases lcase with ⟨l1, l2, l3, l4, l5⟩ | ⟨i, f1, f2, f3, f4⟩
              · exact Or.inl ⟨l1, l2, Or.inr ⟨_, l3, hok0⟩, l4, l5⟩
              · refine Or.inr ⟨i, f1, f2, f3, ?_, ?_, ?_, ?_⟩
                · rw [f4]
                · rw [f4]
                · rw [f4]
                · rw [f4]
                  exact Or.inr ⟨_, rfl, hok0⟩
      · rw [Bool.not_eq_true] at hok0
        simp only [hok0, Bool.not_false, if_true]
        refine ⟨?_, Or.inl ⟨by trivial, ?_, Or.inl (by trivial), Or.inl (by trivial),
          Or.inr ⟨_, by trivial, hok0⟩⟩⟩
        · intro q hq
          simp only [List.mem_singleton] at hq
          rw [hq]
        · intro q hq
          simp only [List.mem_singleton] at hq
          rw [hq]
          exact hf0

/-- Python `x or y` on a non-empty string picks `x`. -/
theorem pyStr_pyOr_nonempty (x : String) (y : JVal) (h : x ≠ "") :
    pyStr ((JVal.str x).pyOr y) = x := by
  simp [JVal.pyOr, JVal.truthy, h, pyStr]

/-- Python `str(x or "")` is the identity on strings. -/
theorem pyStr_pyOr_empty (x : String) :
    pyStr ((JVal.str x).pyOr (.str "")) = x := by
  by_cases h : x = "" <;> simp [JVal.pyOr, JVal.truthy, pyStr, h]

/-- Python `x or y` keeps the left value when the string is non-empty. -/
theorem pyOr_str_nonempty (x : String) (y : JVal) (h : x ≠ "") :
    (JVal.str x).pyOr y = .str x := by
  simp [JVal.pyOr, JVal.truthy, h]

/-- Value equations for `pyStr`, `pyInt` and `isNull` on constructors. -/
theorem pyStr_str (s : String) : pyStr (.str s) = s := rfl

/-- Value equation for `pyInt` on an int. -/
theorem pyInt_int (n : Int) : pyInt (.int n) = n := rfl

/-- Strings are not `None`. -/
theorem isNull_str (s : String) : (JVal.str s).isNull = false := rfl

/-- Ints are not `None`. -/
theorem isNull_int (n : Int) : (JVal.int n).isNull = false := rfl

/-- `None` is `None`. -/
theorem isNull_null : JVal.isNull .null = true := rfl

/-- Serialized attempts with non-falsy group fields deserialize to themselves. -/
theorem att_round_trip (a : CeAttempt) (h : attemptSerializable a = true) :
    dict_to_att (att_to_dict a) = a := by
  rcases a with ⟨p, sr, ct, cid, cn, sv, code, stx⟩
  simp only [attemptSerializable, Bool.and_eq_true, bne_iff_ne, ne_eq,
    Bool.not_eq_true', beq_eq_false_iff_ne] at h
  obtain ⟨⟨h1, h2⟩, h3⟩ := h
  cases sv with
  | none =>
    simp [dict_to_att, att_to_dict, jget, List.lookup, pyOr_str_nonempty _ _ h1,
      pyOr_str_nonempty _ _ h2, pyOr_str_nonempty _ _ h3, pyStr_pyOr_empty,
      pyStr_str, pyInt_int, isNull_str, isNull_int, isNull_null]
  | some v =>
    simp [dict_to_att, att_to_dict, jget, List.lookup, pyOr_str_nonempty _ _ h1,
      pyOr_str_nonempty _ _ h2, pyOr_str_nonempty _ _ h3, pyStr_pyOr_empty,
      pyStr_str, pyInt_int, isNull_str, isNull_int, isNull_null]

/-- Serialized attempt lists whose members are serializable deserialize to
themselves. -/
theorem attempts_round_trip (l : List CeAttempt) (h : l.all attemptSerializable = true) :
    (l.map (fun a => JVal.obj (att_to_dict a))).filterMap
      (fun a => match a with | .obj x => some (dict_to_att x) | _ => none) = l := by
  induction l with
  | nil => rfl
  | cons a rest ih =>
    rw [List.all_cons, Bool.and_eq_true] at h
    simp only [List.map_cons, List.filterMap_cons]
    rw [att_round_trip a h.1, ih h.2]

/-- A serialized group entry deserializes to the original summary. -/
theorem summary_round_trip (s : CeGroupSummary) (h : summarySerializable s = true) :
    dict_to_summary
      [("family", .str s.compiler_type),
       ("platform", .str s.platform),
       ("series", .str s.series),
       ("arch", .str s.platform),
       ("highest_supported", opt_att s.highest_supported),
       ("lowest_supported", opt_att s.lowest_supported),
       ("first_failure", opt_att s.first_failure),
       ("attempts", .arr (s.attempts.map (fun a => .obj (att_to_dict a)))),
       ("inconclusive_reason",
        match s.inconclusive_reason with | some r => .str r | none => .null)] = s := by
  rcases s with ⟨p, sr, ct, hs, ls, ff, atts, inc⟩
  simp only [summarySerializable, Bool.and_eq_true, bne_iff_ne, ne_eq,
    Bool.not_eq_true', beq_eq_false_iff_ne] at h
  obtain ⟨⟨⟨⟨⟨⟨h1, h2⟩, h3⟩, h4⟩, h5⟩, h6⟩, h7⟩ := h
  have hopt : ∀ (o : Option CeAttempt), o.all attemptSerializable = true →
      (match opt_att o with
        | .obj x => some (dict_to_att x)
        | _ => none) = o := by
    intro o ho
    cases o with
    | none => rfl
    | some a =>
      rw [Option.all_some] at ho
      simp only [opt_att]
      rw [att_round_trip a ho]
  have hattsAll : (atts.map (fun a => JVal.obj (att_to_dict a))).all
      (fun a => match a with | .obj _ => true | _ => false) = true := by
    refine List.all_eq_true.mpr (fun a ha => ?_)
    rcases List.mem_map.mp ha with ⟨b, -, rfl⟩
    rfl
  cases inc with
  | none =>
    simp [dict_to_summary, jget, List.lookup, isNull_null, isNull_str,
      pyOr_str_nonempty _ _ h1, pyOr_str_nonempty _ _ h2, pyOr_str_nonempty _ _ h3,
      pyStr_pyOr_nonempty _ _ h1, pyStr_pyOr_nonempty _ _ h2, pyStr_pyOr_nonempty _ _ h3,
      hopt hs h4, hopt ls h5, hopt ff h6, hattsAll, attempts_round_trip atts h7, pyStr_str]
  | some r =>
    simp [dict_to_summary, jget, List.lookup, isNull_null, isNull_str,
      pyOr_str_nonempty _ _ h1, pyOr_str_nonempty _ _ h2, pyOr_str_nonempty _ _ h3,
      pyStr_pyOr_nonempty _ _ h1, pyStr_pyOr_nonempty _ _ h2, pyStr_pyOr_nonempty _ _ h3,
      hopt hs h4, hopt ls h5, hopt ff h6, hattsAll, attempts_round_trip atts h7, pyStr_str]

/-- Re-entering a file on the active recursion stack emits only the optional
cycle marker and changes no state. -/
theorem flattenFile_cycle_eq (fl : FlattenFlags) (env : FlattenEnv) (st : FlattenState)
    (stack : List String) (p : String) (hp : p ∈ fsKeys env) (h : p ∈ stack) :
    flattenFile fl env st stack p hp
      = ((if fl.include_debug_comments then cycleMarker p else ""), st) := by
  rw [flattenFile, dif_pos h]

/-- Passthrough lines are emitted verbatim with no state change. -/
theorem flattenLines_passthrough (fl : FlattenFlags) (env : FlattenEnv)
    (hsp : fl.strip_pragma_once = false) (lines : List String)
    (h : ∀ l ∈ lines, matchIncludeQuoted l = none) :
    ∀ (st : FlattenState) (stack : List String) (p : String) (n : Nat),
      flattenLines fl env st stack p n lines = (concatList lines, st) := by
  induction lines with
  | nil =>
    intro st stack p n
    rw [flattenLines]
    rfl
  | cons line rest ih =>
    intro st stack p n
    rw [flattenLines]
    simp only [hsp, Bool.false_and, Bool.false_eq_true, if_false,
      h line (by simp), concatList]
    rw [ih (fun l hl => h l (by simp [hl])) st stack p (n + 1)]

/-! ## Claim theorems -/

/-- C3, counterexample: the key of `"trunk"` is strictly below the key of the
numbered release string `"10000.0.0"`, so a bleeding-edge string does not sort
strictly newer than every numbered release string. -/
theorem semver_trunk_below_large_release :
    semverKeyLt (parse_semver_key (some "trunk")) (parse_semver_key (some "10000.0.0")) := by
  decide

/-- C3 (amended): `parse_semver_key` orders `"14.2.0" > "14.1.0" > "9.0"` and
`"trunk"`/`"nightly" > "99.0.0"`, and any string recognized as bleeding-edge
(contains one of trunk/head/git/snapshot/nightly/tip case-insensitively and
does not start with a digit) sorts strictly newer than every string whose key
has leading numeric component below 9999. -/
theorem semver_key_ordering :
    (semverKeyLt (parse_semver_key (some "14.1.0")) (parse_semver_key (some "14.2.0")) ∧
     semverKeyLt (parse_semver_key (some "9.0")) (parse_semver_key (some "14.1.0")) ∧
     semverKeyLt (parse_semver_key (some "99.0.0")) (parse_semver_key (some "trunk")) ∧
     semverKeyLt (parse_semver_key (some "99.0.0")) (parse_semver_key (some "nightly"))) ∧
    ∀ s t : String, isBleedingEdge s = true →
      (parse_semver_key (some t)).1 < 9999 →
      semverKeyLt (parse_semver_key (some t)) (parse_semver_key (some s)) := by
  refine ⟨by decide, ?_⟩
  intro s t hs ht
  have hne : s ≠ "" := by
    intro h
    subst h
    have hfalse : isBleedingEdge "" = false := by decide
    rw [hfalse] at hs
    cases hs
  have hkey : parse_semver_key (some s) = (9999, 9999, 9999, 9999, pyLower (pyStrip s)) := by
    simp [parse_semver_key, hne, parseSemverStr, hs]
  rw [hkey]
  exact Or.inl ht

/-- C3, witness: the general bleeding-edge ordering applied to `"trunk"` and
`"14.2.0"`. -/
theorem semver_key_ordering_witness :
    isBleedingEdge "trunk" = true ∧ (parse_semver_key (some "14.2.0")).1 < 9999 ∧
    semverKeyLt (parse_semver_key (some "14.2.0")) (parse_semver_key (some "trunk")) :=
  ⟨by decide, by decide, semver_key_ordering.2 "trunk" "14.2.0" (by decide) (by decide)⟩

/-- C5, counterexample: with the compiler-scoped rule listed before the
all-scoped rule, `_effective_libraries_for_compiler` applies the rules in list
order (the all-scoped rule wins), not in the claimed all/family/compiler
priority order (under which the compiler-scoped rule would win). -/
theorem effective_libraries_list_order_differs :
    effective_libraries_for_compiler
        [⟨"compiler", "g132", "fmt", "13.0"⟩, ⟨"all", "", "fmt", "9.0"⟩] "gcc" "g132"
      = [("fmt", "9.0")] ∧
    effective_libraries_spec
        [⟨"compiler", "g132", "fmt", "13.0"⟩, ⟨"all", "", "fmt", "9.0"⟩] "gcc" "g132"
      = [("fmt", "13.0")] ∧
    effective_libraries_for_compiler
        [⟨"compiler", "g132", "fmt", "13.0"⟩, ⟨"all", "", "fmt", "9.0"⟩] "gcc" "g132"
      ≠ effective_libraries_spec
        [⟨"compiler", "g132", "fmt", "13.0"⟩, ⟨"all", "", "fmt", "9.0"⟩] "gcc" "g132" := by
  refine ⟨by decide, by decide, by decide⟩

/-- C5 (amended): `_effective_libraries_for_compiler` computes the
last-writer-wins merge of the matching rules in rule-list order; whenever the
rule list is already ordered with all-scoped rules first, then family-scoped,
then compiler-scoped, this agrees with the claimed priority-order merge, and on
the claim's example rules the results are fmt@13.0 for (gcc, g132), fmt@11.0
for (gcc, g100) and fmt@9.0 for a clang-family compiler. -/
theorem effective_libraries_resolution :
    (∀ (A F C : List LibraryRule) (family compiler_id : String),
      (∀ r ∈ A, r.scope = "all") → (∀ r ∈ F, r.scope = "family") →
      (∀ r ∈ C, r.scope = "compiler") →
      effective_libraries_for_compiler (A ++ F ++ C) family compiler_id
        = effective_libraries_spec (A ++ F ++ C) family compiler_id) ∧
    effective_libraries_for_compiler
        [⟨"all", "", "fmt", "9.0"⟩, ⟨"family", "gcc", "fmt", "11.0"⟩,
         ⟨"compiler", "g132", "fmt", "13.0"⟩] "gcc" "g132" = [("fmt", "13.0")] ∧
    effective_libraries_for_compiler
        [⟨"all", "", "fmt", "9.0"⟩, ⟨"family", "gcc", "fmt", "11.0"⟩,
         ⟨"compiler", "g132", "fmt", "13.0"⟩] "gcc" "g100" = [("fmt", "11.0")] ∧
    effective_libraries_for_compiler
        [⟨"all", "", "fmt", "9.0"⟩, ⟨"family", "gcc", "fmt", "11.0"⟩,
         ⟨"compiler", "g132", "fmt", "13.0"⟩] "clang" "c100" = [("fmt", "9.0")] := by
  refine ⟨?_, by decide, by decide, by decide⟩
  intro A F C family compiler_id hA hF hC
  simp only [effective_libraries_for_compiler, effective_libraries_spec]
  rw [foldl_guard_filter]
  have eA : A.filter (fun r => ruleMatches r (pyStrip family) (pyStrip compiler_id)) = A :=
    List.filter_eq_self.mpr (fun r hr => by simp [ruleMatches, hA r hr])
  have eF : F.filter (fun r => ruleMatches r (pyStrip family) (pyStrip compiler_id))
      = F.filter (fun r => r.target = pyStrip family) :=
    List.filter_congr (fun r hr => by simp [ruleMatches, hF r hr])
  have eC : C.filter (fun r => ruleMatches r (pyStrip family) (pyStrip compiler_id))
      = C.filter (fun r => r.target = pyStrip compiler_id) :=
    List.filter_congr (fun r hr => by simp [ruleMatches, hC r hr])
  have aAll : A.filter (fun r => r.scope = "all") = A :=
    List.filter_eq_self.mpr (fun r hr => by simp [hA r hr])
  have fAll : F.filter (fun r => (r.scope = "all" : Bool)) = [] :=
    List.filter_eq_nil_iff.mpr (fun r hr => by simp [hF r hr])
  have cAll : C.filter (fun r => (r.scope = "all" : Bool)) = [] :=
    List.filter_eq_nil_iff.mpr (fun r hr => by simp [hC r hr])
  have aFam : A.filter (fun r => r.scope = "family" && r.target = pyStrip family) = [] :=
    List.filter_eq_nil_iff.mpr (fun r hr => by simp [hA r hr])
  have fFam : F.filter (fun r => r.scope = "family" && r.target = pyStrip family)
      = F.filter (fun r => r.target = pyStrip family) :=
    List.filter_congr (fun r hr => by simp [hF r hr])
  have cFam : C.filter (fun r => r.scope = "family" && r.target = pyStrip family) = [] :=
    List.filter_eq_nil_iff.mpr (fun r hr => by simp [hC r hr])
  have aCom : A.filter (fun r => r.scope = "compiler" && r.target = pyStrip compiler_id) = [] :=
    List.filter_eq_nil_iff.mpr (fun r hr => by simp [hA r hr])
  have fCom : F.filter (fun r => r.scope = "compiler" && r.target = pyStrip compiler_id) = [] :=
    List.filter_eq_nil_iff.mpr (fun r hr => by simp [hF r hr])
  have cCom : C.filter (fun r => r.scope = "compiler" && r.target = pyStrip compiler_id)
      = C.filter (fun r => r.target = pyStrip compiler_id) :=
    List.filter_congr (fun r hr => by simp [hC r hr])
  have sA : (A ++ F ++ C).filter (fun r => (r.scope = "all" : Bool)) = A := by
    rw [List.filter_append, List.filter_append, aAll, fAll, cAll, List.append_nil,
      List.append_nil]
  have sF : (A ++ F ++ C).filter (fun r => r.scope = "family" && r.target = pyStrip family)
      = F.filter (fun r => r.target = pyStrip family) := by
    rw [List.filter_append, List.filter_append, aFam, fFam, cFam, List.append_nil,
      List.nil_append]
  have sC : (A ++ F ++ C).filter (fun r => r.scope = "compiler" && r.target = pyStrip compiler_id)
      = C.filter (fun r => r.target = pyStrip compiler_id) := by
    rw [List.filter_append, List.filter_append, aCom, fCom, cCom, List.nil_append,
      List.nil_append]
  rw [List.filter_append, List.filter_append, eA, eF, eC, sA, sF, sC]

/-- C5, witness: the priority-sorted agreement applied to a concrete
one-rule-per-scope list. -/
theorem effective_libraries_resolution_witness :
    effective_libraries_for_compiler
        ([⟨"all", "", "fmt", "9.0"⟩] ++ [⟨"family", "gcc", "fmt", "11.0"⟩] ++
         [⟨"compiler", "g132", "fmt", "13.0"⟩]) "gcc" "g132"
      = effective_libraries_spec
        ([⟨"all", "", "fmt", "9.0"⟩] ++ [⟨"family", "gcc", "fmt", "11.0"⟩] ++
         [⟨"compiler", "g132", "fmt", "13.0"⟩]) "gcc" "g132" :=
  effective_libraries_resolution.1 _ _ _ "gcc" "g132"
    (by decide) (by decide) (by decide)

/-- C6: if the newest candidate (index 0) fails with a non-zero compiler
result code, `_probe_group_binary` issues no further compile calls (the final
memo holds exactly the one attempt) and returns a summary whose attempts list
is just that attempt, with `highest_supported = None` and `first_failure` that
attempt. -/
theorem probe_newest_failure_stops (pl se fam : String) (compilers : List CompilerInfo)
    (env : Nat → CompileOutcome) (c : Int) (e : String)
    (hne : compilers ≠ []) (h0 : env 0 = .compiled c e) (hc : c ≠ 0) :
    probe_group_binary_full pl se fam compilers env
      = (⟨pl, se, fam, none, none, some (attemptOf pl se fam compilers env 0),
          [attemptOf pl se fam compilers env 0], none⟩,
         ⟨[(0, attemptOf pl se fam compilers env 0)], none⟩) := by
  have hn : ¬ compilers.length = 0 := by simpa using hne
  have hr0 : reasonOf compilers env 0 = none := by simp [reasonOf, h0]
  have hok : (attemptOf pl se fam compilers env 0).ok = false := by
    simp [attemptOf, CeAttempt.ok, h0, hc]
  simp only [probe_group_binary_full, hn, if_false,
    probeTest_miss_clean pl se fam compilers env ⟨[], none⟩ 0 rfl hr0]
  simp [hok]

/-- C6, witness: a single-candidate group whose newest candidate fails. -/
theorem probe_newest_failure_stops_witness :
    probe_group_binary_full "x" "s" "gcc" [⟨"g1", "gcc 1", "c++", "gcc", none, none⟩]
        (fun _ => .compiled 1 "err")
      = (⟨"x", "s", "gcc", none, none,
          some (attemptOf "x" "s" "gcc" [⟨"g1", "gcc 1", "c++", "gcc", none, none⟩]
            (fun _ => .compiled 1 "err") 0),
          [attemptOf "x" "s" "gcc" [⟨"g1", "gcc 1", "c++", "gcc", none, none⟩]
            (fun _ => .compiled 1 "err") 0], none⟩,
         ⟨[(0, attemptOf "x" "s" "gcc" [⟨"g1", "gcc 1", "c++", "gcc", none, none⟩]
            (fun _ => .compiled 1 "err") 0)], none⟩) :=
  probe_newest_failure_stops "x" "s" "gcc" _ _ 1 "err" (by simp) rfl (by decide)

/-- C7: when both the newest (index 0) and the oldest (index n-1) candidates
compile successfully, `_probe_group_binary` issues exactly two compile calls
(the final memo holds exactly those two attempts) and reports the newest as
highest supported, the oldest as lowest supported and no first failure. -/
theorem probe_endpoints_ok_two_calls (pl se fam : String) (compilers : List CompilerInfo)
    (env : Nat → CompileOutcome) (s0 s1 : String)
    (hn : 2 ≤ compilers.length) (h0 : env 0 = .compiled 0 s0)
    (hN : env (compilers.length - 1) = .compiled 0 s1) :
    probe_group_binary_full pl se fam compilers env
      = (⟨pl, se, fam, some (attemptOf pl se fam compilers env 0),
          some (attemptOf pl se fam compilers env (compilers.length - 1)), none,
          [attemptOf pl se fam compilers env 0,
           attemptOf pl se fam compilers env (compilers.length - 1)], none⟩,
         ⟨[(0, attemptOf pl se fam compilers env 0),
           (compilers.length - 1, attemptOf pl se fam compilers env (compilers.length - 1))],
          none⟩) := by
  have hn0 : ¬ compilers.length = 0 := by omega
  have hn1 : ¬ compilers.length = 1 := by omega
  have hm : compilers.length - 1 ≠ 0 := by omega
  have hr0 : reasonOf compilers env 0 = none := by simp [reasonOf, h0]
  have hrN : reasonOf compilers env (compilers.length - 1) = none := by simp [reasonOf, hN]
  have hok0 : (attemptOf pl se fam compilers env 0).ok = true := by
    simp [attemptOf, CeAttempt.ok, h0]
  have hokN : (attemptOf pl se fam compilers env (compilers.length - 1)).ok = true := by
    simp [attemptOf, CeAttempt.ok, hN]
  have hlk : ([(0, attemptOf pl se fam compilers env 0)] :
      List (Nat × CeAttempt)).lookup (compilers.length - 1) = none := by
    have : (compilers.length - 1 == 0) = false := by simp [hm]
    simp [List.lookup, this]
  simp only [probe_group_binary_full, hn0, if_false,
    probeTest_miss_clean pl se fam compilers env ⟨[], none⟩ 0 rfl hr0]
  simp only [hok0, hn1, Bool.not_true, if_false, Option.isSome_none, Bool.false_eq_true,
    if_true, List.nil_append]
  simp only [probeTest_miss_clean pl se fam compilers env
    ⟨[(0, attemptOf pl se fam compilers env 0)], none⟩ (compilers.length - 1) hlk hrN]
  simp [hokN, sortedAttempts_pair _ _ _ hm]

/-- C7, witness: a two-candidate group with both endpoints compiling. -/
theorem probe_endpoints_ok_two_calls_witness :
    probe_group_binary_full "x" "s" "gcc"
        [⟨"g2", "gcc 2", "c++", "gcc", none, none⟩, ⟨"g1", "gcc 1", "c++", "gcc", none, none⟩]
        (fun _ => .compiled 0 "")
      = (⟨"x", "s", "gcc",
          some (attemptOf "x" "s" "gcc"
            [⟨"g2", "gcc 2", "c++", "gcc", none, none⟩, ⟨"g1", "gcc 1", "c++", "gcc", none, none⟩]
            (fun _ => .compiled 0 "") 0),
          some (attemptOf "x" "s" "gcc"
            [⟨"g2", "gcc 2", "c++", "gcc", none, none⟩, ⟨"g1", "gcc 1", "c++", "gcc", none, none⟩]
            (fun _ => .compiled 0 "") 1), none,
          [attemptOf "x" "s" "gcc"
            [⟨"g2", "gcc 2", "c++", "gcc", none, none⟩, ⟨"g1", "gcc 1", "c++", "gcc", none, none⟩]
            (fun _ => .compiled 0 "") 0,
           attemptOf "x" "s" "gcc"
            [⟨"g2", "gcc 2", "c++", "gcc", none, none⟩, ⟨"g1", "gcc 1", "c++", "gcc", none, none⟩]
            (fun _ => .compiled 0 "") 1], none⟩,
         ⟨[(0, attemptOf "x" "s" "gcc"
            [⟨"g2", "gcc 2", "c++", "gcc", none, none⟩, ⟨"g1", "gcc 1", "c++", "gcc", none, none⟩]
            (fun _ => .compiled 0 "") 0),
           (1, attemptOf "x" "s" "gcc"
            [⟨"g2", "gcc 2", "c++", "gcc", none, none⟩, ⟨"g1", "gcc 1", "c++", "gcc", none, none⟩]
            (fun _ => .compiled 0 "") 1)], none⟩) :=
  probe_endpoints_ok_two_calls "x" "s" "gcc" _ _ "" ""
    (by decide) rfl rfl

/-- C1: for a candidate list (newest to oldest) whose per-index compile
outcomes are OK for indices `0..k` and FAIL for `k+1..n-1` with `0 ≤ k < n-1`,
`_probe_group_binary` reports the attempt at index 0 as `highest_supported`,
the attempt at index `k` as `lowest_supported`, the attempt at index `k+1` as
`first_failure`, with no inconclusive reason, and the number of distinct
indices actually compiled (one attempt each) is at most `⌈log₂ n⌉ + 2`. -/
theorem probe_boundary_search (pl se fam : String) (compilers : List CompilerInfo)
    (env : Nat → CompileOutcome) (k : Nat)
    (hk : k < compilers.length - 1)
    (henvok : ∀ i, i ≤ k → (env i).isOk = true)
    (henvfail : ∀ i, k < i → i < compilers.length → (env i).isFail = true) :
    (probe_group_binary pl se fam compilers env).highest_supported
        = some (attemptOf pl se fam compilers env 0) ∧
    (probe_group_binary pl se fam compilers env).lowest_supported
        = some (attemptOf pl se fam compilers env k) ∧
    (probe_group_binary pl se fam compilers env).first_failure
        = some (attemptOf pl se fam compilers env (k + 1)) ∧
    (probe_group_binary pl se fam compilers env).inconclusive_reason = none ∧
    (probe_group_binary pl se fam compilers env).attempts.length
        ≤ Nat.clog 2 compilers.length + 2 := by
  have hn0 : ¬ compilers.length = 0 := by omega
  have hn1 : ¬ compilers.length = 1 := by omega
  have hm : compilers.length - 1 ≠ 0 := by omega
  have hr0 : reasonOf compilers env 0 = none :=
    (reasonOf_eq_none_iff compilers env 0).mpr
      (not_isFault_of_isOk _ (henvok 0 (Nat.zero_le k)))
  have hrN : reasonOf compilers env (compilers.length - 1) = none :=
    (reasonOf_eq_none_iff compilers env _).mpr
      (not_isFault_of_isFail _ (henvfail _ hk (by omega)))
  have hok0 : (attemptOf pl se fam compilers env 0).ok = true :=
    attemptOf_ok_of_isOk pl se fam compilers env 0 (henvok 0 (Nat.zero_le k))
  have hokN : (attemptOf pl se fam compilers env (compilers.length - 1)).ok = false :=
    attemptOf_not_ok_of_isFail pl se fam compilers env _ (henvfail _ hk (by omega))
  have hlk : ([(0, attemptOf pl se fam compilers env 0)] :
      List (Nat × CeAttempt)).lookup (compilers.length - 1) = none := by
    have : (compilers.length - 1 == 0) = false := by simp [hm]
    simp [List.lookup, this]
  have hunf : probe_group_binary pl se fam compilers env
      = (probeLoop pl se fam compilers env (attemptOf pl se fam compilers env 0)
          ⟨[(0, attemptOf pl se fam compilers env 0),
            (compilers.length - 1, attemptOf pl se fam compilers env (compilers.length - 1))],
           none⟩ 0 (compilers.length - 1)).1 := by
    simp only [probe_group_binary, probe_group_binary_full, hn0, if_false,
      probeTest_miss_clean pl se fam compilers env ⟨[], none⟩ 0 rfl hr0]
    simp only [hok0, hn1, Bool.not_true, if_false, Option.isSome_none, Bool.false_eq_true,
      if_true, List.nil_append]
    simp only [probeTest_miss_clean pl se fam compilers env
      ⟨[(0, attemptOf pl se fam compilers env 0)], none⟩ (compilers.length - 1) hlk hrN]
    simp [hokN]
  have hmemo2 : ∀ q ∈ ([(0, attemptOf pl se fam compilers env 0),
      (compilers.length - 1, attemptOf pl se fam compilers env (compilers.length - 1))] :
      List (Nat × CeAttempt)), q.2 = attemptOf pl se fam compilers env q.1 := by
    intro q hq
    simp only [List.mem_cons, List.not_mem_nil, or_false] at hq
    rcases hq with hq | hq
    · rw [hq]
    · rw [hq]
  obtain ⟨c1, c2, c3⟩ := probeLoop_boundary pl se fam compilers env k
    (attemptOf pl se fam compilers env 0) henvok henvfail (compilers.length - 1 - 0)
    ⟨[(0, attemptOf pl se fam compilers env 0),
      (compilers.length - 1, attemptOf pl se fam compilers env (compilers.length - 1))], none⟩
    0 (compilers.length - 1) rfl rfl hmemo2 (by simp) (by simp)
    (Nat.zero_le k) hk (le_refl _)
  rw [hunf, c1]
  refine ⟨rfl, rfl, rfl, rfl, ?_⟩
  rw [length_sortedAttempts]
  have hb : Nat.clog 2 (compilers.length - 1 - 0) ≤ Nat.clog 2 compilers.length :=
    Nat.clog_mono_right 2 (by omega)
  simp only [List.length_cons, List.length_nil] at c2
  omega

/-- C1, witness: sixteen candidates with the OK/FAIL boundary at index 5. -/
theorem probe_boundary_search_witness :
    (probe_group_binary "x" "s" "gcc"
        ((List.range 16).map (fun _ => ⟨"g", "gcc", "c++", "gcc", none, none⟩))
        (fun i => if i ≤ 5 then .compiled 0 "" else .compiled 1 "err")).attempts.length
      ≤ Nat.clog 2 ((List.range 16).map
          (fun _ => (⟨"g", "gcc", "c++", "gcc", none, none⟩ : CompilerInfo))).length + 2 :=
  (probe_boundary_search "x" "s" "gcc"
    ((List.range 16).map (fun _ => ⟨"g", "gcc", "c++", "gcc", none, none⟩))
    (fun i => if i ≤ 5 then .compiled 0 "" else .compiled 1 "err") 5
    (by simp)
    (by intro i h; simp [h, CompileOutcome.isOk])
    (by
      intro i h1 h2
      have h5 : ¬ i ≤ 5 := by omega
      simp [h5, CompileOutcome.isFail])).2.2.2.2

/-- Attempts reported `ok` have result code 0. -/
theorem code_eq_zero_of_ok (a : CeAttempt) (h : a.ok = true) : a.code = 0 := by
  simpa [CeAttempt.ok] using h

/-- Attempts reported not `ok` have a non-zero result code. -/
theorem code_ne_zero_of_not_ok (a : CeAttempt) (h : a.ok = false) : a.code ≠ 0 := by
  simpa [CeAttempt.ok] using h

/-- C2: whenever a tested compile raises a network fault,
`_probe_group_binary` stops compiling (the faulted attempt is the last entry of
the chronological memo and every earlier tested outcome is fault-free) and
returns a summary with the faulted attempt as `first_failure`,
`inconclusive_reason` set, and `lowest_supported` never guessed (it is
`None`). -/
theorem probe_fault_halts (pl se fam : String) (compilers : List CompilerInfo)
    (env : Nat → CompileOutcome)
    (hf : ∃ q ∈ (probe_group_binary_full pl se fam compilers env).2.memo,
      (env q.1).isFault = true) :
    ∃ i, (env i).isFault = true ∧
      (probe_group_binary_full pl se fam compilers env).2.memo.getLast?
        = some (i, attemptOf pl se fam compilers env i) ∧
      (∀ q ∈ (probe_group_binary_full pl se fam compilers env).2.memo.dropLast,
        (env q.1).isFault = false) ∧
      (probe_group_binary pl se fam compilers env).first_failure
        = some (attemptOf pl se fam compilers env i) ∧
      (probe_group_binary pl se fam compilers env).inconclusive_reason.isSome = true ∧
      (probe_group_binary pl se fam compilers env).lowest_supported = none := by
  obtain ⟨hc, hcase⟩ := probe_full_spec pl se fam compilers env
  rcases hcase with ⟨_, hnf, _⟩ | ⟨i, f1, f2, f3, f4, f5, f6, _⟩
  · rcases hf with ⟨q, hq, hfq⟩
    rw [hnf q hq] at hfq
    cases hfq
  · refine ⟨i, f1, f2, f3, f4, ?_, f6⟩
    show (probe_group_binary_full pl se fam compilers env).1.inconclusive_reason.isSome = true
    rw [f5]
    exact reasonOf_isSome_of_isFault compilers env i f1

/-- C2, witness: a single-candidate group whose only compile faults with a
timeout. -/
theorem probe_fault_halts_witness :
    (∃ q ∈ (probe_group_binary_full "x" "s" "gcc"
        [⟨"g1", "gcc 1", "c++", "gcc", none, none⟩]
        (fun _ => .timeout "boom")).2.memo,
      (((fun _ => CompileOutcome.timeout "boom") : Nat → CompileOutcome) q.1).isFault
        = true) ∧
    (∃ i, (((fun _ => CompileOutcome.timeout "boom") : Nat → CompileOutcome) i).isFault
        = true ∧
      (probe_group_binary_full "x" "s" "gcc" [⟨"g1", "gcc 1", "c++", "gcc", none, none⟩]
        (fun _ => .timeout "boom")).2.memo.getLast?
        = some (i, attemptOf "x" "s" "gcc" [⟨"g1", "gcc 1", "c++", "gcc", none, none⟩]
            (fun _ => .timeout "boom") i) ∧
      (∀ q ∈ (probe_group_binary_full "x" "s" "gcc"
          [⟨"g1", "gcc 1", "c++", "gcc", none, none⟩]
          (fun _ => .timeout "boom")).2.memo.dropLast,
        (((fun _ => CompileOutcome.timeout "boom") : Nat → CompileOutcome) q.1).isFault
          = false) ∧
      (probe_group_binary "x" "s" "gcc" [⟨"g1", "gcc 1", "c++", "gcc", none, none⟩]
        (fun _ => .timeout "boom")).first_failure
        = some (attemptOf "x" "s" "gcc" [⟨"g1", "gcc 1", "c++", "gcc", none, none⟩]
            (fun _ => .timeout "boom") i) ∧
      (probe_group_binary "x" "s" "gcc" [⟨"g1", "gcc 1", "c++", "gcc", none, none⟩]
        (fun _ => .timeout "boom")).inconclusive_reason.isSome = true ∧
      (probe_group_binary "x" "s" "gcc" [⟨"g1", "gcc 1", "c++", "gcc", none, none⟩]
        (fun _ => .timeout "boom")).lowest_supported = none) :=
  ⟨by decide, probe_fault_halts "x" "s" "gcc" [⟨"g1", "gcc 1", "c++", "gcc", none, none⟩]
    (fun _ => .timeout "boom") (by decide)⟩

/-- C10: in every summary produced by the probe worker — by
`_probe_group_binary` under any outcome environment, and by the group-level
error containment of `CeProbeWorker.run` — `highest_supported` and
`lowest_supported`, when set, are attempts whose result code is 0, and
`first_failure`, when set, is an attempt whose result code is non-zero. -/
theorem probe_summary_code_invariant :
    (∀ (pl se fam : String) (compilers : List CompilerInfo) (env : Nat → CompileOutcome),
      summaryInv (probe_group_binary pl se fam compilers env)) ∧
    (∀ pl se fam msg : String, summaryInv (probe_error_summary pl se fam msg)) := by
  constructor
  · intro pl se fam compilers env
    show summaryInv (probe_group_binary_full pl se fam compilers env).1
    obtain ⟨-, hcase⟩ := probe_full_spec pl se fam compilers env
    rcases hcase with ⟨-, -, h3, h4, h5⟩ | ⟨i, f1, -, -, f4, -, f6, f7⟩
    · refine ⟨?_, ?_, ?_⟩
      · intro a ha
        rcases h3 with h | ⟨b, hb, hok⟩
        · rw [h] at ha
          cases ha
        · rw [hb] at ha
          injection ha with ha
          rw [← ha]
          exact code_eq_zero_of_ok b hok
      · intro a ha
        rcases h4 with h | ⟨b, hb, hok⟩
        · rw [h] at ha
          cases ha
        · rw [hb] at ha
          injection ha with ha
          rw [← ha]
          exact code_eq_zero_of_ok b hok
      · intro a ha
        rcases h5 with h | ⟨b, hb, hok⟩
        · rw [h] at ha
          cases ha
        · rw [hb] at ha
          injection ha with ha
          rw [← ha]
          exact code_ne_zero_of_not_ok b hok
    · refine ⟨?_, ?_, ?_⟩
      · intro a ha
        rcases f7 with h | ⟨b, hb, hok⟩
        · rw [h] at ha
          cases ha
        · rw [hb] at ha
          injection ha with ha
          rw [← ha]
          exact code_eq_zero_of_ok b hok
      · intro a ha
        rw [f6] at ha
        cases ha
      · intro a ha
        rw [f4] at ha
        injection ha with ha
        rw [← ha]
        exact code_ne_zero_of_not_ok _
          (attemptOf_not_ok_of_isFault pl se fam compilers env i f1)
  · intro pl se fam msg
    refine ⟨?_, ?_, ?_⟩
    · intro a ha
      cases ha
    · intro a ha
      cases ha
    · intro a ha
      injection ha with ha
      rw [← ha]
      simp [CODE_TRANSPORT_ERROR]

/-- C4, counterexample: the round trip is not the identity on every value —
serializing with an empty standard string deserializes to the `"c++17"`
fallback (Python `or` treats the empty string as falsy). -/
theorem report_round_trip_empty_standard :
    report_dict_to_summaries (summaries_to_report_dict "" []) = ("c++17", []) ∧
    report_dict_to_summaries (summaries_to_report_dict "" []) ≠ ("", []) := by
  constructor
  · rfl
  · intro h
    have : ("c++17" : String) = "" := congrArg Prod.fst h
    exact absurd this (by decide)

/-- C4 (amended): serializing with `summaries_to_report_dict` and
deserializing with `report_dict_to_summaries` returns the same standard string
and summaries equal in every field — including `None` versus set optional
attempts/reason and empty versus populated attempts lists — provided the
standard string and the platform/series/family strings of each summary and of
each contained attempt are non-empty (Python `or` fallbacks replace falsy
empty strings, so fully general losslessness fails). -/
theorem report_round_trip (standard : String) (summaries : List CeGroupSummary)
    (hstd : standard ≠ "")
    (hs : ∀ s ∈ summaries, summarySerializable s = true) :
    report_dict_to_summaries (summaries_to_report_dict standard summaries)
      = (standard, summaries) := by
  have hgroups : ∀ l : List CeGroupSummary, (∀ s ∈ l, summarySerializable s = true) →
      (l.map (fun s => JVal.obj
        [("family", .str s.compiler_type),
         ("platform", .str s.platform),
         ("series", .str s.series),
         ("arch", .str s.platform),
         ("highest_supported", opt_att s.highest_supported),
         ("lowest_supported", opt_att s.lowest_supported),
         ("first_failure", opt_att s.first_failure),
         ("attempts", .arr (s.attempts.map (fun a => .obj (att_to_dict a)))),
         ("inconclusive_reason",
          match s.inconclusive_reason with | some r => .str r | none => .null)])).filterMap
        (fun g => match g with
          | .obj gd => some (dict_to_summary gd)
          | _ => none) = l := by
    intro l hl
    induction l with
    | nil => rfl
    | cons s rest ih =>
      simp only [List.map_cons, List.filterMap_cons]
      rw [summary_round_trip s (hl s (by simp))]
      rw [ih (fun t ht => hl t (by simp [ht]))]
  simp only [report_dict_to_summaries, summaries_to_report_dict, jget, List.lookup]
  simp only [show (("standard" : String) == "standard") = true from rfl,
    show (("groups" : String) == "standard") = false from rfl,
    show (("groups" : String) == "groups") = true from rfl]
  simp only [pyStr_pyOr_nonempty _ _ hstd]
  rw [hgroups summaries hs]

/-- C4, witness: a round trip of a report with one fully populated summary
(optional attempts and reason set, two attempts) and one sparse summary
(no optional attempts, empty attempts list, no reason). -/
theorem report_round_trip_witness :
    report_dict_to_summaries (summaries_to_report_dict "c++20"
      [⟨"x86-64", "gcc x86", "gcc",
        some ⟨"x86-64", "gcc x86", "gcc", "g132", "gcc 13.2", some "13.2.0", 0, ""⟩,
        some ⟨"x86-64", "gcc x86", "gcc", "g111", "gcc 11.1", some "11.1.0", 0, ""⟩,
        some ⟨"x86-64", "gcc x86", "gcc", "g91", "gcc 9.1", none, 1, "error: no"⟩,
        [⟨"x86-64", "gcc x86", "gcc", "g132", "gcc 13.2", some "13.2.0", 0, ""⟩,
         ⟨"x86-64", "gcc x86", "gcc", "g91", "gcc 9.1", none, 1, "error: no"⟩],
        some "Timeout talking to Compiler Explorer (compiler id=g81)"⟩,
       ⟨"aarch64", "clang arm", "clang", none, none, none, [], none⟩])
      = ("c++20",
      [⟨"x86-64", "gcc x86", "gcc",
        some ⟨"x86-64", "gcc x86", "gcc", "g132", "gcc 13.2", some "13.2.0", 0, ""⟩,
        some ⟨"x86-64", "gcc x86", "gcc", "g111", "gcc 11.1", some "11.1.0", 0, ""⟩,
        some ⟨"x86-64", "gcc x86", "gcc", "g91", "gcc 9.1", none, 1, "error: no"⟩,
        [⟨"x86-64", "gcc x86", "gcc", "g132", "gcc 13.2", some "13.2.0", 0, ""⟩,
         ⟨"x86-64", "gcc x86", "gcc", "g91", "gcc 9.1", none, 1, "error: no"⟩],
        some "Timeout talking to Compiler Explorer (compiler id=g81)"⟩,
       ⟨"aarch64", "clang arm", "clang", none, none, none, [], none⟩]) :=
  report_round_trip "c++20" _ (by decide) (by decide)

/-- C8: the flattener is cycle safe. Re-entering a file that is already on the
active recursion stack emits nothing (or only the cycle marker when debug
comments are on) and performs no further recursion (the state is unchanged);
and for every pair of files that include each other, `flatten_user_includes`
terminates with a result, for both values of `inline_once` (the recursion is
well-founded by construction — termination was proved when defining
`flattenFile`). -/
theorem flatten_cycle_safety :
    (∀ (fl : FlattenFlags) (env : FlattenEnv) (st : FlattenState) (stack : List String)
       (p : String) (hp : p ∈ fsKeys env), p ∈ stack →
       flattenFile fl env st stack p hp
         = ((if fl.include_debug_comments then cycleMarker p else ""), st)) ∧
    (∀ (fl : FlattenFlags) (env : FlattenEnv) (pA pB nA nB lA lB : String),
       pA ∈ fsKeys env → pB ∈ fsKeys env →
       lA ∈ readLines env pA → matchIncludeQuoted lA = some nB →
       resolve_include env nB pA = some pB →
       lB ∈ readLines env pB → matchIncludeQuoted lB = some nA →
       resolve_include env nA pB = some pA →
       ∃ out st, flatten_user_includes fl env pA = .ok (out, st)) := by
  constructor
  · exact flattenFile_cycle_eq
  · intro fl env pA pB nA nB lA lB hA _ _ _ _ _ _ _
    refine ⟨(flattenFile fl env ⟨[], ⟨0, 0, 0, 0⟩⟩ [] pA hA).1,
      (flattenFile fl env ⟨[], ⟨0, 0, 0, 0⟩⟩ [] pA hA).2, ?_⟩
    simp [flatten_user_includes, hA]

/-- C8, witness: two mutually-including files; the cycle guard re-entry and
the terminating whole-file flatten, both at a concrete cyclic filesystem. -/
theorem flatten_cycle_safety_witness :
    flattenFile ⟨false, false, false, false⟩
        ⟨[("/a.h", ["#include \"b.h\"\n"]), ("/b.h", ["#include \"a.h\"\n"])], []⟩
        ⟨["/a.h"], ⟨1, 1, 1, 0⟩⟩ ["/a.h"] "/a.h" (by simp [fsKeys]) = ("", ⟨["/a.h"], ⟨1, 1, 1, 0⟩⟩) ∧
    (∃ out st, flatten_user_includes ⟨true, false, false, false⟩
        ⟨[("/a.h", ["#include \"b.h\"\n"]), ("/b.h", ["#include \"a.h\"\n"])], []⟩
        "/a.h" = .ok (out, st)) :=
  ⟨flatten_cycle_safety.1 ⟨false, false, false, false⟩
      ⟨[("/a.h", ["#include \"b.h\"\n"]), ("/b.h", ["#include \"a.h\"\n"])], []⟩
      ⟨["/a.h"], ⟨1, 1, 1, 0⟩⟩ ["/a.h"] "/a.h" (by simp [fsKeys]) (by simp),
   flatten_cycle_safety.2 ⟨true, false, false, false⟩
      ⟨[("/a.h", ["#include \"b.h\"\n"]), ("/b.h", ["#include \"a.h\"\n"])], []⟩
      "/a.h" "/b.h" "a.h" "b.h" "#include \"b.h\"\n" "#include \"a.h\"\n"
      (by simp [fsKeys]) (by simp [fsKeys]) (by simp [readLines, List.lookup])
      (by decide) (by decide) (by simp [readLines, List.lookup]) (by decide) (by decide)⟩

/-- C9: for a diamond-shaped include graph (root includes B and C, and both B
and C include the same file D) with `inline_once = true`, the flattened output
contains D's body exactly once — at the first resolution site — and the second
resolution of D produces no content, or only the duplicate-skip marker when
debug comments are enabled; D is counted as inlined once
(`files_inlined = 4`). -/
theorem flatten_diamond_inline_once (dbg : Bool) (search : List String)
    (pR pB pC pD nB nC nD nD2 lR1 lR2 lB lC : String) (dbody : List String)
    (env : FlattenEnv)
    (henv : env = ⟨[(pR, [lR1, lR2]), (pB, [lB]), (pC, [lC]), (pD, dbody)], search⟩)
    (hRB : pR ≠ pB) (hRC : pR ≠ pC) (hRD : pR ≠ pD) (hBC : pB ≠ pC) (hBD : pB ≠ pD)
    (hCD : pC ≠ pD)
    (hlR1 : matchIncludeQuoted lR1 = some nB) (hrB : resolve_include env nB pR = some pB)
    (hlR2 : matchIncludeQuoted lR2 = some nC) (hrC : resolve_include env nC pR = some pC)
    (hlB : matchIncludeQuoted lB = some nD) (hrD : resolve_include env nD pB = some pD)
    (hlC : matchIncludeQuoted lC = some nD2) (hrD2 : resolve_include env nD2 pC = some pD)
    (hpass : ∀ l ∈ dbody, matchIncludeQuoted l = none) :
    flatten_user_includes ⟨true, false, false, dbg⟩ env pR
      = .ok ((if dbg then beginMarker pR else "") ++
             (if dbg then inlinedMarker nB pB else "") ++
             (if dbg then beginMarker pB else "") ++
             (if dbg then inlinedMarker nD pD else "") ++
             (if dbg then beginMarker pD else "") ++
             concatList dbody ++
             (if dbg then endMarker pD else "") ++
             (if dbg then endMarker pB else "") ++
             (if dbg then inlinedMarker nC pC else "") ++
             (if dbg then beginMarker pC else "") ++
             (if dbg then inlinedMarker nD2 pD else "") ++
             (if dbg then dupMarker pD else "") ++
             (if dbg then endMarker pC else "") ++
             (if dbg then endMarker pR else ""),
             ⟨[pR, pB, pD, pC], ⟨4, 4, 4, 0⟩⟩) := by
  have hpassrw := flattenLines_passthrough ⟨true, false, false, dbg⟩ env rfl dbody hpass
  have bBR : (pB == pR) = false := by simp [hRB.symm]
  have bCR : (pC == pR) = false := by simp [hRC.symm]
  have bDR : (pD == pR) = false := by simp [hRD.symm]
  have bCB : (pC == pB) = false := by simp [hBC.symm]
  have bDB : (pD == pB) = false := by simp [hBD.symm]
  have bDC : (pD == pC) = false := by simp [hCD.symm]
  subst henv
  have hroot : pR ∈ fsKeys ⟨[(pR, [lR1, lR2]), (pB, [lB]), (pC, [lC]), (pD, dbody)],
      search⟩ := by simp [fsKeys]
  rw [flatten_user_includes, dif_pos hroot]
  rw [flattenFile, dif_neg (by simp)]
  cases dbg with
  | false =>
    simp [flattenFile, flattenLines, hpassrw, hlR1, hlR2, hlB, hlC,
      readLines, fsKeys, List.lookup, bBR, bCR, bDR, bCB, bDB, bDC, addToSet,
      hRB, hRC, hRD, hBC, hBD, hCD,
      hRB.symm, hRC.symm, hRD.symm, hBC.symm, hBD.symm, hCD.symm, concatList,
      beq_self_eq_true, String.append_assoc, String.append_empty, String.empty_append]
    split
    · rename_i h
      first
      | (rw [hrB] at h; cases h)
      | (rw [hrC] at h; cases h)
      | (rw [hrD] at h; cases h)
      | (rw [hrD2] at h; cases h)
    · rename_i h
      first
      | rw [hrB] at h
      | rw [hrC] at h
      | rw [hrD] at h
      | rw [hrD2] at h
      injection h with h
      subst h
      simp [flattenFile, flattenLines, hpassrw, hlR1, hlR2, hlB, hlC,
      readLines, fsKeys, List.lookup, bBR, bCR, bDR, bCB, bDB, bDC, addToSet,
      hRB, hRC, hRD, hBC, hBD, hCD,
      hRB.symm, hRC.symm, hRD.symm, hBC.symm, hBD.symm, hCD.symm, concatList,
      beq_self_eq_true, String.append_assoc, String.append_empty, String.empty_append]
      split
      · rename_i h
        first
        | (rw [hrB] at h; cases h)
        | (rw [hrC] at h; cases h)
        | (rw [hrD] at h; cases h)
        | (rw [hrD2] at h; cases h)
      · rename_i h
        first
        | rw [hrB] at h
        | rw [hrC] at h
        | rw [hrD] at h
        | rw [hrD2] at h
        injection h with h
        subst h
        simp [flattenFile, flattenLines, hpassrw, hlR1, hlR2, hlB, hlC,
      readLines, fsKeys, List.lookup, bBR, bCR, bDR, bCB, bDB, bDC, addToSet,
      hRB, hRC, hRD, hBC, hBD, hCD,
      hRB.symm, hRC.symm, hRD.symm, hBC.symm, hBD.symm, hCD.symm, concatList,
      beq_self_eq_true, String.append_assoc, String.append_empty, String.empty_append]
        split
        · rename_i h
          first
          | (rw [hrB] at h; cases h)
          | (rw [hrC] at h; cases h)
          | (rw [hrD] at h; cases h)
          | (rw [hrD2] at h; cases h)
        · rename_i h
          first
          | rw [hrB] at h
          | rw [hrC] at h
          | rw [hrD] at h
          | rw [hrD2] at h
          injection h with h
          subst h
          simp [flattenFile, flattenLines, hpassrw, hlR1, hlR2, hlB, hlC,
      readLines, fsKeys, List.lookup, bBR, bCR, bDR, bCB, bDB, bDC, addToSet,
      hRB, hRC, hRD, hBC, hBD, hCD,
      hRB.symm, hRC.symm, hRD.symm, hBC.symm, hBD.symm, hCD.symm, concatList,
      beq_self_eq_true, String.append_assoc, String.append_empty, String.empty_append]
          split
          · rename_i h
            first
            | (rw [hrB] at h; cases h)
            | (rw [hrC] at h; cases h)
            | (rw [hrD] at h; cases h)
            | (rw [hrD2] at h; cases h)
          · rename_i h
            first
            | rw [hrB] at h
            | rw [hrC] at h
            | rw [hrD] at h
            | rw [hrD2] at h
            injection h with h
            subst h
            simp [flattenFile, flattenLines, hpassrw, hlR1, hlR2, hlB, hlC,
      readLines, fsKeys, List.lookup, bBR, bCR, bDR, bCB, bDB, bDC, addToSet,
      hRB, hRC, hRD, hBC, hBD, hCD,
      hRB.symm, hRC.symm, hRD.symm, hBC.symm, hBD.symm, hCD.symm, concatList,
      beq_self_eq_true, String.append_assoc, String.append_empty, String.empty_append]
  | true =>
    simp [flattenFile, flattenLines, hpassrw, hlR1, hlR2, hlB, hlC,
      readLines, fsKeys, List.lookup, bBR, bCR, bDR, bCB, bDB, bDC, addToSet,
      hRB, hRC, hRD, hBC, hBD, hCD,
      hRB.symm, hRC.symm, hRD.symm, hBC.symm, hBD.symm, hCD.symm, concatList,
      beq_self_eq_true, String.append_assoc, String.append_empty, String.empty_append]
    split
    · rename_i h
      first
      | (rw [hrB] at h; cases h)
      | (rw [hrC] at h; cases h)
      | (rw [hrD] at h; cases h)
      | (rw [hrD2] at h; cases h)
    · rename_i h
      first
      | rw [hrB] at h
      | rw [hrC] at h
      | rw [hrD] at h
      | rw [hrD2] at h
      injection h with h
      subst h
      simp [flattenFile, flattenLines, hpassrw, hlR1, hlR2, hlB, hlC,
      readLines, fsKeys, List.lookup, bBR, bCR, bDR, bCB, bDB, bDC, addToSet,
      hRB, hRC, hRD, hBC, hBD, hCD,
      hRB.symm, hRC.symm, hRD.symm, hBC.symm, hBD.symm, hCD.symm, concatList,
      beq_self_eq_true, String.append_assoc, String.append_empty, String.empty_append]
      split
      · rename_i h
        first
        | (rw [hrB] at h; cases h)
        | (rw [hrC] at h; cases h)
        | (rw [hrD] at h; cases h)
        | (rw [hrD2] at h; cases h)
      · rename_i h
        first
        | rw [hrB] at h
        | rw [hrC] at h
        | rw [hrD] at h
        | rw [hrD2] at h
        injection h with h
        subst h
        simp [flattenFile, flattenLines, hpassrw, hlR1, hlR2, hlB, hlC,
      readLines, fsKeys, List.lookup, bBR, bCR, bDR, bCB, bDB, bDC, addToSet,
      hRB, hRC, hRD, hBC, hBD, hCD,
      hRB.symm, hRC.symm, hRD.symm, hBC.symm, hBD.symm, hCD.symm, concatList,
      beq_self_eq_true, String.append_assoc, String.append_empty, String.empty_append]
        split
        · rename_i h
          first
          | (rw [hrB] at h; cases h)
          | (rw [hrC] at h; cases h)
          | (rw [hrD] at h; cases h)
          | (rw [hrD2] at h; cases h)
        · rename_i h
          first
          | rw [hrB] at h
          | rw [hrC] at h
          | rw [hrD] at h
          | rw [hrD2] at h
          injection h with h
          subst h
          simp [flattenFile, flattenLines, hpassrw, hlR1, hlR2, hlB, hlC,
      readLines, fsKeys, List.lookup, bBR, bCR, bDR, bCB, bDB, bDC, addToSet,
      hRB, hRC, hRD, hBC, hBD, hCD,
      hRB.symm, hRC.symm, hRD.symm, hBC.symm, hBD.symm, hCD.symm, concatList,
      beq_self_eq_true, String.append_assoc, String.append_empty, String.empty_append]
          split
          · rename_i h
            first
            | (rw [hrB] at h; cases h)
            | (rw [hrC] at h; cases h)
            | (rw [hrD] at h; cases h)
            | (rw [hrD2] at h; cases h)
          · rename_i h
            first
            | rw [hrB] at h
            | rw [hrC] at h
            | rw [hrD] at h
            | rw [hrD2] at h
            injection h with h
            subst h
            simp [flattenFile, flattenLines, hpassrw, hlR1, hlR2, hlB, hlC,
      readLines, fsKeys, List.lookup, bBR, bCR, bDR, bCB, bDB, bDC, addToSet,
      hRB, hRC, hRD, hBC, hBD, hCD,
      hRB.symm, hRC.symm, hRD.symm, hBC.symm, hBD.symm, hCD.symm, concatList,
      beq_self_eq_true, String.append_assoc, String.append_empty, String.empty_append]

/-- C9, witness: a concrete diamond — root includes b.h and c.h, both include
d.h — flattened with `inline_once` and no debug comments; d.h's body appears
exactly once and d.h is counted as inlined once. -/
theorem flatten_diamond_inline_once_witness :
    flatten_user_includes ⟨true, false, false, false⟩
        ⟨[("/r.cpp", ["#include \"b.h\"\n", "#include \"c.h\"\n"]),
          ("/b.h", ["#include \"d.h\"\n"]),
          ("/c.h", ["#include \"d.h\"\n"]),
          ("/d.h", ["struct D{};\n"])], []⟩ "/r.cpp"
      = .ok ("struct D{};\n", ⟨["/r.cpp", "/b.h", "/d.h", "/c.h"], ⟨4, 4, 4, 0⟩⟩) :=
  flatten_diamond_inline_once false [] "/r.cpp" "/b.h" "/c.h" "/d.h" "b.h" "c.h" "d.h" "d.h"
    "#include \"b.h\"\n" "#include \"c.h\"\n" "#include \"d.h\"\n" "#include \"d.h\"\n"
    ["struct D{};\n"] _ rfl
    (by decide) (by decide) (by decide) (by decide) (by decide) (by decide)
    (by decide) (by decide) (by decide) (by decide) (by decide) (by decide)
    (by decide) (by decide) (by decide)

end StdMinver